import Mathlib

/-!
Verification of the calendar-driven attendance and payroll engine of the
FutsalClubSite repository (`futsal_club/services/jalali_utils.py`,
`attendance_service.py`, `payroll_service.py`, `models.py`,
`views/finance_views.py`).

Conventions of the embedding:
* Python integers are `Int`; Python `//` and `%` (floor division) coincide
  with Lean's `/` and `%` on `Int` (Euclidean) because every divisor
  appearing below is positive.
* `Decimal` amounts with `decimal_places=0` are `Int` (whole rial amounts).
* Django querysets are lists of records passed in explicitly; a `.filter`
  executed by the ORM becomes a `List.filter` inside the embedded function.
* `update_or_create` / `get_or_create` keyed by a unique constraint become
  an explicit search-then-update-or-append on the list.
* A Django `transaction.atomic` block that raises leaves the store
  untouched; such operations return `Except`, and the `.error` outcome
  carries no new state (the rollback).
-/

namespace FutsalClub

/-! ### Calendar core (`jalali_utils.py` and the `jdatetime` library)

`jalali_utils.gregorian_to_jalali` / `jalali_to_gregorian` delegate to the
`jdatetime` library (`jdatetime.date.fromgregorian` / `.togregorian`),
whose converter (`jdatetime/jalali.py`) is the classic Pournader–Toossi
algorithm.  The functions below embed that algorithm on `(year, month,
day)` integer triples; intermediate day counts follow the C original
(`g_day_no` counts days from 1600-01-01, `j_day_no` from Jalali 979/01/01,
offset 79). -/

/-- Gregorian month lengths in a non-leap year
(`g_days_in_month` in `jdatetime/jalali.py`). -/
def gDaysTable : List Int := [31, 28, 31, 30, 31, 30, 31, 31, 30, 31, 30, 31]

/-- Jalali month lengths in a non-leap year
(`j_days_in_month` in `jdatetime/jalali.py`). -/
def jDaysTable : List Int := [31, 31, 31, 31, 31, 31, 30, 30, 30, 30, 30, 29]

/-- Sum of the first `k` entries of a month-length table — the
`for i in range(m - 1): day_no += table[i]` loops of the converter. -/
def daysBeforeMonth : List Int → Int → Int
  | [], _ => 0
  | l :: ls, k => if 1 ≤ k then l + daysBeforeMonth ls (k - 1) else 0

/-- The month-extraction loop of the converter: starting at month index
`i`, subtract month lengths while the remaining day count reaches them;
returns the 0-based `(month index, day index)`. -/
def monthLoop : List Int → Int → Int → Int × Int
  | [], i, n => (i, n)
  | l :: ls, i, n => if l ≤ n then monthLoop ls (i + 1) (n - l) else (i, n)

/-- `jdatetime.date.isleap`: the 33-year-cycle Jalali leap rule.  Used by
`JalaliMonth.days_in_month` (`jalali_utils.py`) through
`jdatetime.date(year, 1, 1).isleap()`. -/
def isJalaliLeap (y : Int) : Bool :=
  let r := y % 33
  r = 1 || r = 5 || r = 9 || r = 13 || r = 17 || r = 22 || r = 26 || r = 30

/-- `JalaliMonth.days_in_month`: 31 for months 1–6, 30 for 7–11, and for
month 12 either 30 (leap year) or 29. -/
def jDaysInMonth (y m : Int) : Int :=
  if m ≤ 6 then 31
  else if m ≤ 11 then 30
  else if isJalaliLeap y then 30 else 29

/-- The Gregorian leap test applied by `GregorianToJalali` to the year
relative to 1600. -/
def isGregLeap (y : Int) : Bool :=
  (y % 4 = 0 && y % 100 ≠ 0) || y % 400 = 0

/-- Day count from Jalali 979/01/01 to the start of relative Jalali year
`y` (the `365*jy + jy/33*8 + (jy%33+3)/4` term of `JalaliToGregorian`). -/
def jYearStart (y : Int) : Int :=
  365 * y + 8 * (y / 33) + (y % 33 + 3) / 4

/-- The `j_day_no` computed by `JalaliToGregorian`: days elapsed since
Jalali 979/01/01. -/
def jDayNumber (jy jm jd : Int) : Int :=
  jYearStart (jy - 979) + (daysBeforeMonth jDaysTable (jm - 1) + (jd - 1))

/-- Day count from 1600-01-01 to the start of relative Gregorian year `y`
(the leap-counting term of `GregorianToJalali`). -/
def gYearStart (y : Int) : Int :=
  365 * y + (y + 3) / 4 - (y + 99) / 100 + (y + 399) / 400

/-- The `g_day_no` computed by `GregorianToJalali`: days elapsed since
1600-01-01 (month prefix plus one leap day when past February of a leap
year). -/
def gDayNumber (gy gm gd : Int) : Int :=
  gYearStart (gy - 1600) + daysBeforeMonth gDaysTable (gm - 1)
    + (if 2 < gm ∧ isGregLeap (gy - 1600) then 1 else 0) + (gd - 1)

/-- Final reduction step of `JalaliToGregorian`'s year cascade. -/
def gYearSplitAux (gy2 r2 : Int) (leap1 : Bool) : Int × Int × Bool :=
  let gy3 := gy2 + 4 * (r2 / 1461)
  let r3 := r2 % 1461
  if 366 ≤ r3 then (gy3 + (r3 - 1) / 365, (r3 - 1) % 365, false)
  else (gy3, r3, leap1)

/-- The year cascade of `JalaliToGregorian`: split a day count into
(absolute Gregorian year, day of year, leap flag), reducing by 400-year,
100-year, 4-year and 1-year cycles exactly as the C original (including
the `g_day_no--` / `g_day_no++` adjustments around the century step). -/
def gYearSplit (n : Int) : Int × Int × Bool :=
  let gy1 := 1600 + 400 * (n / 146097)
  let r1 := n % 146097
  if 36525 ≤ r1 then
    let gyc := gy1 + 100 * ((r1 - 1) / 36524)
    let rc := (r1 - 1) % 36524
    if 365 ≤ rc then gYearSplitAux gyc (rc + 1) true
    else gYearSplitAux gyc rc false
  else gYearSplitAux gy1 r1 true

/-- The Gregorian month table used by `JalaliToGregorian`'s month loop
(`g_days_in_month[i] + (i == 1 && leap)`). -/
def gMonthTable (leap : Bool) : List Int :=
  [31, if leap then 29 else 28, 31, 30, 31, 30, 31, 31, 30, 31, 30, 31]

/-- First 11 entries of `j_days_in_month` — `GregorianToJalali`'s month
loop runs `for (i = 0; i < 11 && ...)`, so month 12 absorbs the rest. -/
def jLoopTable : List Int := [31, 31, 31, 31, 31, 31, 30, 30, 30, 30, 30]

/-- Month loop of `JalaliToGregorian` (0-based month and day indices). -/
def gMonthSplit (leap : Bool) (r : Int) : Int × Int :=
  monthLoop (gMonthTable leap) 0 r

/-- Month loop of `GregorianToJalali` (0-based month and day indices). -/
def jMonthSplit (r : Int) : Int × Int :=
  monthLoop jLoopTable 0 r

/-- Expansion of a day count (days since 1600-01-01) into a Gregorian
`(year, month, day)` triple — second half of `JalaliToGregorian`. -/
def gFromDayNumber (n : Int) : Int × Int × Int :=
  ((gYearSplit n).1,
   (gMonthSplit (gYearSplit n).2.2 (gYearSplit n).2.1).1 + 1,
   (gMonthSplit (gYearSplit n).2.2 (gYearSplit n).2.1).2 + 1)

/-- `jalali_utils.jalali_to_gregorian` (= `jdatetime.date.togregorian`):
the full Jalali → Gregorian conversion. -/
def jalali_to_gregorian (jy jm jd : Int) : Int × Int × Int :=
  gFromDayNumber (jDayNumber jy jm jd + 79)

/-- The year cascade of `GregorianToJalali`: split a Jalali day count into
(absolute Jalali year, day of year) by 33-year, 4-year and 1-year cycles. -/
def jYearSplit (n : Int) : Int × Int :=
  let jNp := n / 12053
  let r1 := n % 12053
  let jy1 := 979 + 33 * jNp + 4 * (r1 / 1461)
  let r2 := r1 % 1461
  if 366 ≤ r2 then (jy1 + (r2 - 1) / 365, (r2 - 1) % 365) else (jy1, r2)

/-- Expansion of a Jalali day count into a Jalali `(year, month, day)`
triple — second half of `GregorianToJalali`. -/
def jFromDayNumber (n : Int) : Int × Int × Int :=
  ((jYearSplit n).1,
   (jMonthSplit (jYearSplit n).2).1 + 1,
   (jMonthSplit (jYearSplit n).2).2 + 1)

/-- `jalali_utils.gregorian_to_jalali` (= `jdatetime.date.fromgregorian`):
the full Gregorian → Jalali conversion. -/
def gregorian_to_jalali (gy gm gd : Int) : Int × Int × Int :=
  jFromDayNumber (gDayNumber gy gm gd - 79)

/-- `jdatetime.date.weekday()` (Saturday = 0 … Friday = 6) of a Jalali
date: the underlying Gregorian day number modulo 7, anchored at
1600-01-01 being a Saturday.  Weekday codes follow `WEEKDAY_TO_JDT` of
`jalali_utils.py` (sat = 0, sun = 1, …, fri = 6). -/
def jWeekday (jy jm jd : Int) : Int := (jDayNumber jy jm jd + 79) % 7

/-- `JalaliMonth.days_for_weekdays`: the days of month `(y, m)` whose
weekday code lies in the given set (schedule weekdays already mapped
through `WEEKDAY_TO_JDT`). -/
def days_for_weekdays (y m : Int) (weekdayInts : List Int) : List (Int × Int × Int) :=
  ((List.range (jDaysInMonth y m).toNat).map (fun i => ((i : Int) + 1))).filterMap
    (fun d => if weekdayInts.contains (jWeekday y m d) then some (y, m, d) else none)

/-! ### Shared service-layer data model (`models.py`) -/

/-- `PlayerAttendance.AttendanceStatus` / `CoachAttendance.AttendanceStatus`. -/
inductive AttStatus
  | present
  | absent
  | excused
deriving DecidableEq, BEq, Repr

/-- `CoachSalary.SalaryStatus`. -/
inductive SalaryStatus
  | calculated
  | approved
  | paid
  | confirmed
deriving DecidableEq, BEq, Repr

/-- `PlayerInvoice.PaymentStatus`. -/
inductive PayStatus
  | pending
  | paid
  | debtor
  | pending_confirm
deriving DecidableEq, BEq, Repr

/-- `Player.Status`. -/
inductive PStatus
  | pending
  | approved
  | rejected
  | archived
deriving DecidableEq, BEq, Repr

/-- Error outcomes raised by the services (`ValueError` / `PermissionError`
sites, plus a notification-creation failure inside a transaction). -/
inductive ServiceError
  | finalizedSheet
  | rateNotDefined
  | sheetNotFound
  | invalidState
  | notificationFailed
deriving DecidableEq, BEq, Repr

/-! ### Attendance recording (`attendance_service.py`) -/

/-- One `PlayerAttendance` / `CoachAttendance` row of a fixed session
(unique per `(session, entity)`). -/
structure AttRow where
  entityId : Nat
  status : AttStatus
  note : String
deriving DecidableEq, Repr

/-- One element of the `attendance_data` list; `status` and `note` are
looked up with `.get` and default to absent / empty. -/
structure AttEntry where
  entityId : Nat
  status : Option AttStatus
  note : Option String
deriving DecidableEq, Repr

/-- The `update_or_create(session=…, player_id=…, defaults=…)` call for a
single entry: replace the row keyed by the entity if present, else create
it. -/
def upsertAttendance (rows : List AttRow) (e : AttEntry) : List AttRow :=
  if rows.any (fun r => r.entityId == e.entityId) then
    rows.map (fun r =>
      if r.entityId == e.entityId then
        { r with status := e.status.getD .absent, note := e.note.getD "" }
      else r)
  else rows ++ [⟨e.entityId, e.status.getD .absent, e.note.getD ""⟩]

/-- `AttendanceService.record_player_attendance` restricted to one
session: rejects a finalized sheet, otherwise upserts every entry in
order (the whole call is one transaction). -/
def record_player_attendance (isFinalized : Bool) (rows : List AttRow)
    (attendance_data : List AttEntry) : Except ServiceError (List AttRow) :=
  if isFinalized then .error .finalizedSheet
  else .ok (attendance_data.foldl upsertAttendance rows)

/-- `AttendanceService.record_coach_attendance` — same body as the player
variant, keyed by `coach_id`. -/
def record_coach_attendance (isFinalized : Bool) (rows : List AttRow)
    (attendance_data : List AttEntry) : Except ServiceError (List AttRow) :=
  if isFinalized then .error .finalizedSheet
  else .ok (attendance_data.foldl upsertAttendance rows)

/-- The key column of an attendance row list. -/
def attKeys (rows : List AttRow) : List Nat := rows.map (·.entityId)

/-- Number of rows stored for one entity. -/
def countKey (rows : List AttRow) (eid : Nat) : Nat :=
  (rows.filter (fun r => r.entityId == eid)).length

/-! ### Attendance matrix (`attendance_service.py`, `build_attendance_matrix`) -/

/-- The fields of `Player` that the matrix builder reads. -/
structure PlayerRec where
  id : Nat
  pstatus : PStatus
  isArchived : Bool
deriving DecidableEq, Repr

/-- The fields of `Coach` that the matrix builder reads. -/
structure CoachRec where
  id : Nat
  isActive : Bool
deriving DecidableEq, Repr

/-- `CoachCategoryRate` (also carries the coach's user for the insurance
sweep's coach notifications). -/
structure RateRec where
  coachId : Nat
  coachUserId : Option Nat
  categoryId : Nat
  session_rate : Int
  isActive : Bool
deriving DecidableEq, Repr

/-- Banker's rounding of a rational to the nearest integer — the ideal
semantics of Python's `round`. -/
def roundHalfEven (q : ℚ) : Int :=
  let f := ⌊q⌋
  if q - f < 1 / 2 then f
  else if 1 / 2 < q - f then f + 1
  else if f % 2 = 0 then f else f + 1

/-- Python's `round(x, 1)` on the ideal rational value. -/
def round1 (q : ℚ) : ℚ := (roundHalfEven (q * 10) : ℚ) / 10

/-- One row of the attendance matrix (`AttendanceMatrixRow`); `sessions`
holds one `(session_id, status)` entry per session column. -/
structure AttendanceMatrixRow where
  entityId : Nat
  sessions : List (Nat × AttStatus)
deriving DecidableEq, Repr

/-- `AttendanceMatrixRow.present_count`. -/
def AttendanceMatrixRow.present_count (r : AttendanceMatrixRow) : Nat :=
  (r.sessions.filter (fun s => s.2 == AttStatus.present)).length

/-- `AttendanceMatrixRow.absent_count`. -/
def AttendanceMatrixRow.absent_count (r : AttendanceMatrixRow) : Nat :=
  (r.sessions.filter (fun s => s.2 == AttStatus.absent)).length

/-- `AttendanceMatrixRow.excused_count`. -/
def AttendanceMatrixRow.excused_count (r : AttendanceMatrixRow) : Nat :=
  (r.sessions.filter (fun s => s.2 == AttStatus.excused)).length

/-- `AttendanceMatrixRow.attendance_pct`:
`round(present / total * 100, 1)` and `0.0` when there are no sessions. -/
def AttendanceMatrixRow.attendance_pct (r : AttendanceMatrixRow) : ℚ :=
  if r.sessions.length = 0 then 0
  else round1 ((r.present_count : ℚ) / (r.sessions.length : ℚ) * 100)

/-- The `player_att_map.get((sid, pid), ABSENT)` lookup: status of the
attendance record for `(session, entity)`, defaulting to absent.
`attRows` carries `(session_id, entity_id, status)` triples. -/
def lookupStatus (attRows : List (Nat × Nat × AttStatus)) (sid eid : Nat) : AttStatus :=
  match attRows.find? (fun a => a.1 == sid && a.2.1 == eid) with
  | some a => a.2.2
  | none => .absent

/-- The player half of `build_attendance_matrix`: one row per approved,
non-archived player of the category, one status entry per session. -/
def build_player_rows (sessionIds : List Nat) (players : List PlayerRec)
    (attRows : List (Nat × Nat × AttStatus)) : List AttendanceMatrixRow :=
  (players.filter (fun p => !p.isArchived && p.pstatus == PStatus.approved)).map
    (fun p =>
      { entityId := p.id,
        sessions := sessionIds.map (fun sid => (sid, lookupStatus attRows sid p.id)) })

/-- The coach half of `build_attendance_matrix`: one row per active coach
holding an active rate for the category. -/
def build_coach_rows (sessionIds : List Nat) (coaches : List CoachRec)
    (rates : List RateRec) (catId : Nat)
    (attRows : List (Nat × Nat × AttStatus)) : List AttendanceMatrixRow :=
  (coaches.filter (fun c => c.isActive &&
      rates.any (fun r => r.coachId == c.id && r.categoryId == catId && r.isActive))).map
    (fun c =>
      { entityId := c.id,
        sessions := sessionIds.map (fun sid => (sid, lookupStatus attRows sid c.id)) })

/-! ### Session-date synchronization (`attendance_service.py`) -/

/-- A `SessionDate` row: the Gregorian date stored in the database and the
session number (unique per `(sheet, date)`). -/
structure SessionDate where
  date : Int × Int × Int
  session_number : Int
deriving DecidableEq, Repr

/-- `AttendanceService._populate_session_dates`: number the matching days
of the month 1..N in date order (empty schedule yields no sessions). -/
def _populate_session_dates (y m : Int) (weekdayInts : List Int) : List SessionDate :=
  if weekdayInts = [] then []
  else (days_for_weekdays y m weekdayInts).enum.map
    (fun p => ⟨jalali_to_gregorian p.2.1 p.2.2.1 p.2.2.2, (p.1 : Int) + 1⟩)

/-- `AttendanceService._sync_session_dates`: with `last_num` the maximum
existing session number (0 when none), insert each matching day whose
date is not yet present, numbered `last_num + idx` where `idx` is the
1-based position of the day in the full matching-day enumeration. -/
def _sync_session_dates (existing : List SessionDate) (y m : Int)
    (weekdayInts : List Int) : List SessionDate :=
  if weekdayInts = [] then existing
  else
    let existingDates := existing.map (·.date)
    let last_num := ((existing.map (·.session_number)).max?).getD 0
    existing ++ (days_for_weekdays y m weekdayInts).enum.filterMap
      (fun p =>
        let greg := jalali_to_gregorian p.2.1 p.2.2.1 p.2.2.2
        if existingDates.contains greg then none
        else some ⟨greg, last_num + ((p.1 : Int) + 1)⟩)

/-! ### Invoices (`payroll_service.py`, `generate_monthly_invoices`) -/

/-- A `PlayerInvoice` row (unique per
`(player, category, jalali_year, jalali_month)`). -/
structure PlayerInvoice where
  playerId : Nat
  categoryId : Nat
  jalali_year : Int
  jalali_month : Int
  amount : Int
  discount : Int
  final_amount : Int
  paystatus : PayStatus
deriving DecidableEq, Repr

/-- `InvoiceBatch` counters. -/
structure InvoiceBatch where
  created_count : Nat
  skipped_count : Nat
  error_count : Nat
deriving DecidableEq, Repr

/-- The unique-key test of `PlayerInvoice.objects.get_or_create`. -/
def invoiceKeyIs (inv : PlayerInvoice) (p cat : Nat) (jy jm : Int) : Bool :=
  inv.playerId == p && inv.categoryId == cat
    && inv.jalali_year == jy && inv.jalali_month == jm

/-- One `get_or_create` step of the invoice loop.  A created invoice gets
`amount = monthly_fee`, `discount = 0`, status pending; `PlayerInvoice.save`
recomputes `final_amount = amount - discount`.  An existing invoice is
left untouched and counted as skipped. -/
def invoiceStep (cat : Nat) (fee : Int) (jy jm : Int)
    (acc : List PlayerInvoice × Nat × Nat) (p : Nat) :
    List PlayerInvoice × Nat × Nat :=
  if acc.1.any (fun inv => invoiceKeyIs inv p cat jy jm) then
    (acc.1, acc.2.1, acc.2.2 + 1)
  else
    (acc.1 ++ [⟨p, cat, jy, jm, fee, 0, fee - 0, .pending⟩], acc.2.1 + 1, acc.2.2)

/-- The queryset `category.players.filter(status="approved",
is_archived=False)` of the invoice generator, reduced to player ids. -/
def activePlayerIds (players : List PlayerRec) : List Nat :=
  (players.filter (fun p => p.pstatus == PStatus.approved && !p.isArchived)).map (·.id)

/-- The `PlayerInvoice.objects.filter(...)` existence test for one key. -/
def hasInvoice (invs : List PlayerInvoice) (p cat : Nat) (jy jm : Int) : Bool :=
  invs.any (fun inv => invoiceKeyIs inv p cat jy jm)

/-- `PayrollService.generate_monthly_invoices`: for every approved,
non-archived player of the category, get-or-create the month's invoice;
returns the new invoice table and the batch counters.  (Notification
creation has no effect on the invoice table and cannot fail in this
model, so the errors list stays empty.) -/
def generate_monthly_invoices (players : List PlayerRec) (cat : Nat)
    (monthly_fee : Int) (jy jm : Int) (invoices : List PlayerInvoice) :
    List PlayerInvoice × InvoiceBatch :=
  let res := (activePlayerIds players).foldl
    (invoiceStep cat monthly_fee jy jm) (invoices, 0, 0)
  (res.1, ⟨res.2.1, res.2.2, 0⟩)

/-! ### Coach salary (`payroll_service.py`, `models.py`, `finance_views.py`) -/

/-- A `CoachSalary` row (unique per `(coach, category, attendance_sheet)`). -/
structure CoachSalary where
  coachId : Nat
  categoryId : Nat
  sheetId : Nat
  sessions_attended : Int
  session_rate : Int
  base_amount : Int
  manual_adjustment : Int
  adjustment_reason : String
  final_amount : Int
  salstatus : SalaryStatus
  paidAt : Option Nat
  processedBy : Option Nat
  coach_confirmed : Bool
  coachConfirmedAt : Option Nat
deriving DecidableEq, Repr

/-- The salary breakdown returned by `calculate_coach_salary`
(`SalaryBreakdown` dataclass; the fields the claims speak about). -/
structure SalaryBreakdown where
  sessions_total : Int
  sessions_attended : Int
  sessions_absent : Int
  sessions_excused : Int
  session_rate : Int
  base_amount : Int
  manual_adjustment : Int
  final_amount : Int
deriving DecidableEq, Repr

/-- What `calculate_coach_salary` reads from the store: the session count
of the sheet and the statuses of this coach's attendance rows on it. -/
structure SheetCtx where
  sessionCount : Int
  coachStatuses : List AttStatus
deriving DecidableEq, Repr

/-- `PayrollService.calculate_coach_salary`: requires an active rate and
an existing sheet, counts present/excused rows, floors the absence count
at zero, and computes `base = rate × attended`, `final = base + adjustment`. -/
def calculate_coach_salary (rate : Option Int) (ctx : Option SheetCtx)
    (manual_adjustment : Int) : Except ServiceError SalaryBreakdown :=
  match rate with
  | none => .error .rateNotDefined
  | some session_rate =>
    match ctx with
    | none => .error .sheetNotFound
    | some sheet =>
      let sessions_total := sheet.sessionCount
      let sessions_attended :=
        ((sheet.coachStatuses.filter (fun s => s == AttStatus.present)).length : Int)
      let sessions_excused :=
        ((sheet.coachStatuses.filter (fun s => s == AttStatus.excused)).length : Int)
      let sessions_absent := sessions_total - sessions_attended - sessions_excused
      let base_amount := session_rate * sessions_attended
      let final_amount := base_amount + manual_adjustment
      .ok
        { sessions_total := sessions_total
          sessions_attended := sessions_attended
          sessions_absent := max sessions_absent 0
          sessions_excused := sessions_excused
          session_rate := session_rate
          base_amount := base_amount
          manual_adjustment := manual_adjustment
          final_amount := final_amount }

/-- The unique-key test of `CoachSalary.objects.update_or_create`. -/
def salaryKeyIs (s : CoachSalary) (c cat sheet : Nat) : Bool :=
  s.coachId == c && s.categoryId == cat && s.sheetId == sheet

/-- `CoachSalary.objects.update_or_create` with the defaults of
`commit_coach_salary`: amounts, reason, processor and `status = calculated`
are (over)written; `paid_at` and the coach-confirmation fields are not in
the defaults and are preserved on update.  `CoachSalary.save` recomputes
`base_amount = attended × rate` and `final_amount = base + adjustment`. -/
def update_or_create_salary (salaries : List CoachSalary)
    (c cat sheet : Nat) (attended rate adj : Int) (reason : String)
    (processedBy : Option Nat) : List CoachSalary :=
  if salaries.any (fun s => salaryKeyIs s c cat sheet) then
    salaries.map (fun s =>
      if salaryKeyIs s c cat sheet then
        { s with
          sessions_attended := attended
          session_rate := rate
          base_amount := attended * rate
          manual_adjustment := adj
          adjustment_reason := reason
          final_amount := attended * rate + adj
          salstatus := .calculated
          processedBy := processedBy }
      else s)
  else
    salaries ++ [⟨c, cat, sheet, attended, rate, attended * rate, adj, reason,
      attended * rate + adj, .calculated, none, processedBy, false, none⟩]

/-- `PayrollService.commit_coach_salary` (a `transaction.atomic` block):
upsert the salary row, then — when the coach has a user account — create
the notification with no exception handler.  A notification failure
therefore propagates and rolls the whole transaction back: the `.error`
outcome carries no new state.  `notifs` is the notification store
(recipient user ids). -/
def commit_coach_salary (salaries : List CoachSalary) (notifs : List Nat)
    (c cat sheet : Nat) (attended rate adj : Int) (reason : String)
    (coachUserId : Option Nat) (processedBy : Option Nat)
    (notifyFails : Bool) :
    Except ServiceError (List CoachSalary × List Nat) :=
  let salaries2 := update_or_create_salary salaries c cat sheet attended rate adj reason processedBy
  match coachUserId with
  | some u =>
    if notifyFails then .error .notificationFailed
    else .ok (salaries2, notifs ++ [u])
  | none => .ok (salaries2, notifs)

/-- `PayrollService.approve_salary`: only a `calculated` salary can be
approved; otherwise `ValueError`. -/
def approve_salary (s : CoachSalary) (approvedBy : Nat) :
    Except ServiceError CoachSalary :=
  if s.salstatus = .calculated then
    .ok { s with salstatus := .approved, processedBy := some approvedBy }
  else .error .invalidState

/-- `PayrollService.mark_salary_paid`: only an `approved` salary can be
paid; sets the paid timestamp and the processor. -/
def mark_salary_paid (s : CoachSalary) (paidBy : Nat) (now : Nat) :
    Except ServiceError CoachSalary :=
  if s.salstatus = .approved then
    .ok { s with salstatus := .paid, paidAt := some now, processedBy := some paidBy }
  else .error .invalidState

/-- The `action` field posted to `CoachConfirmSalaryView`. -/
inductive CoachAction
  | confirm
  | dispute
  | other
deriving DecidableEq, BEq, Repr

/-- Outcome of `CoachConfirmSalaryView.post` for the owning coach: the
(possibly updated) salary, how many finance managers were notified, and
whether any error was raised. -/
structure ConfirmOutcome where
  salary : CoachSalary
  financeNotifs : Nat
  errored : Bool
deriving DecidableEq, Repr

/-- `CoachConfirmSalaryView.post` (authorization already passed):
`confirm` succeeds only when the status is `paid` (sets `confirmed` and
notifies every finance manager); `dispute` only notifies the finance
managers; any other case falls through to the redirect with no state
change and no error. -/
def coach_confirm_salary_post (s : CoachSalary) (action : CoachAction)
    (financeManagerCount : Nat) (now : Nat) : ConfirmOutcome :=
  if action = .confirm ∧ s.salstatus = .paid then
    { salary :=
        { s with
          salstatus := .confirmed
          coach_confirmed := true
          coachConfirmedAt := some now }
      financeNotifs := financeManagerCount
      errored := false }
  else if action = .dispute then
    { salary := s, financeNotifs := financeManagerCount, errored := false }
  else
    { salary := s, financeNotifs := 0, errored := false }

/-! ### Insurance expiry sweep (`models.py`, `payroll_service.py`) -/

/-- The fields of `Player` read by the insurance sweep; `categories`
carries `(category id, is_active)` pairs. -/
structure InsPlayer where
  id : Nat
  userId : Option Nat
  insuranceActive : Bool
  isArchived : Bool
  approved : Bool
  insurance_expiry_date : Option (Int × Int × Int)
  categories : List (Nat × Bool)
deriving DecidableEq, Repr

/-- An `INSURANCE_EXPIRY` notification row; `msgDaysLeft` is the days-left
figure interpolated into the (single, uniform) message text. -/
structure InsNotif where
  recipient : Nat
  relatedPlayer : Nat
  isRead : Bool
  msgDaysLeft : Int
deriving DecidableEq, Repr

/-- `(expiry.togregorian() - today.togregorian()).days` for two Jalali
dates: the difference of the Gregorian day ordinals. -/
def jdateDiffDays (e t : Int × Int × Int) : Int :=
  gDayNumber (jalali_to_gregorian e.1 e.2.1 e.2.2).1
      (jalali_to_gregorian e.1 e.2.1 e.2.2).2.1
      (jalali_to_gregorian e.1 e.2.1 e.2.2).2.2
    - gDayNumber (jalali_to_gregorian t.1 t.2.1 t.2.2).1
      (jalali_to_gregorian t.1 t.2.1 t.2.2).2.1
      (jalali_to_gregorian t.1 t.2.1 t.2.2).2.2

/-- `Player.is_insurance_expiring_soon`: true only when an expiry date is
set, the insurance is active, and `0 ≤ days_left ≤ days`. -/
def is_insurance_expiring_soon (p : InsPlayer) (today : Int × Int × Int)
    (days : Int) : Bool :=
  match p.insurance_expiry_date with
  | some e =>
    if p.insuranceActive then
      decide (0 ≤ jdateDiffDays e today) && decide (jdateDiffDays e today ≤ days)
    else false
  | none => false

/-- The `Notification.objects.filter(recipient=…, type=INSURANCE_EXPIRY,
is_read=False, related_player=…).exists()` deduplication check. -/
def alreadyNotified (notifs : List InsNotif) (recipient playerId : Nat) : Bool :=
  notifs.any (fun n => n.recipient == recipient && !n.isRead && n.relatedPlayer == playerId)

/-- Create one notification unless an unread one exists for the same
recipient and player. -/
def notifyOnce (acc : List InsNotif × Nat) (recipient playerId : Nat)
    (daysLeft : Int) : List InsNotif × Nat :=
  if alreadyNotified acc.1 recipient playerId then acc
  else (acc.1 ++ [⟨recipient, playerId, false, daysLeft⟩], acc.2 + 1)

/-- Processing of one player inside
`PayrollService.send_insurance_expiry_notifications`: skip unless the
queryset filters and `is_insurance_expiring_soon` pass; otherwise notify
the player's user, the coaches holding an active rate in the player's
active categories, and the technical directors — each deduplicated. -/
def processInsurancePlayer (rates : List RateRec) (directors : List Nat)
    (today : Int × Int × Int) (days_ahead : Int)
    (acc : List InsNotif × Nat) (p : InsPlayer) : List InsNotif × Nat :=
  if !(p.insuranceActive && !p.isArchived && p.approved
      && p.insurance_expiry_date.isSome) then acc
  else if !is_insurance_expiring_soon p today days_ahead then acc
  else
    let days_left := jdateDiffDays (p.insurance_expiry_date.getD (0, 0, 0)) today
    let acc1 :=
      match p.userId with
      | some u => notifyOnce acc u p.id days_left
      | none => acc
    let acc2 := (p.categories.filter (fun cpair => cpair.2)).foldl
      (fun a cpair =>
        (rates.filter (fun r => r.categoryId == cpair.1 && r.isActive)).foldl
          (fun a2 r =>
            match r.coachUserId with
            | some cu => notifyOnce a2 cu p.id days_left
            | none => a2) a) acc1
    directors.foldl (fun a td => notifyOnce a td p.id days_left) acc2

/-- `PayrollService.send_insurance_expiry_notifications`: sweep every
player, returning the notification store and the number created. -/
def send_insurance_expiry_notifications (players : List InsPlayer)
    (rates : List RateRec) (directors : List Nat) (today : Int × Int × Int)
    (days_ahead : Int) (notifs : List InsNotif) : List InsNotif × Nat :=
  players.foldl (processInsurancePlayer rates directors today days_ahead) (notifs, 0)


/-! ### Calendar theorems -/

theorem gYearSplit_spec (n : Int) :
    ∃ y r leap, gYearSplit n = (1600 + y, r, leap) ∧
      gYearStart y + r = n ∧ 0 ≤ r ∧ r < 365 + (if leap then 1 else 0) ∧
      leap = isGregLeap y := by
  simp only [gYearSplit, gYearSplitAux, gYearStart, isGregLeap]
  split_ifs with h1 h2 h3 h4 h5
  -- century step, leap-day survives, year-remainder step: non-leap year
  · refine ⟨400 * (n / 146097) + 100 * ((n % 146097 - 1) / 36524)
        + 4 * (((n % 146097 - 1) % 36524 + 1) / 1461)
        + (((n % 146097 - 1) % 36524 + 1) % 1461 - 1) / 365,
      (((n % 146097 - 1) % 36524 + 1) % 1461 - 1) % 365, false,
      by rw [Prod.mk.injEq]; exact ⟨by ring, rfl⟩, ?_, by omega, by norm_num; omega, ?_⟩
    · have h4c : (400 * (n / 146097) + 100 * ((n % 146097 - 1) / 36524)
            + 4 * (((n % 146097 - 1) % 36524 + 1) / 1461)
            + (((n % 146097 - 1) % 36524 + 1) % 1461 - 1) / 365 + 3) / 4
          = 100 * (n / 146097) + 25 * ((n % 146097 - 1) / 36524)
            + ((n % 146097 - 1) % 36524 + 1) / 1461 + 1 := by omega
      have h100c : (400 * (n / 146097) + 100 * ((n % 146097 - 1) / 36524)
            + 4 * (((n % 146097 - 1) % 36524 + 1) / 1461)
            + (((n % 146097 - 1) % 36524 + 1) % 1461 - 1) / 365 + 99) / 100
          = 4 * (n / 146097) + (n % 146097 - 1) / 36524 + 1 := by omega
      have h400c : (400 * (n / 146097) + 100 * ((n % 146097 - 1) / 36524)
            + 4 * (((n % 146097 - 1) % 36524 + 1) / 1461)
            + (((n % 146097 - 1) % 36524 + 1) % 1461 - 1) / 365 + 399) / 400
          = n / 146097 + 1 := by omega
      omega
    · symm
      simp only [Bool.or_eq_false_iff, Bool.and_eq_false_iff,
        decide_eq_false_iff_not, decide_eq_true_eq, not_not, ne_eq,
        Bool.not_eq_true]
      omega
  -- century step, leap-day survives, no year-remainder step: leap year
  · refine ⟨400 * (n / 146097) + 100 * ((n % 146097 - 1) / 36524)
        + 4 * (((n % 146097 - 1) % 36524 + 1) / 1461),
      ((n % 146097 - 1) % 36524 + 1) % 1461, true,
      by rw [Prod.mk.injEq]; exact ⟨by ring, rfl⟩, ?_, by omega, by norm_num; omega, ?_⟩
    · have hd1 : 1 ≤ ((n % 146097 - 1) % 36524 + 1) / 1461 := by omega
      have h4c : (400 * (n / 146097) + 100 * ((n % 146097 - 1) / 36524)
            + 4 * (((n % 146097 - 1) % 36524 + 1) / 1461) + 3) / 4
          = 100 * (n / 146097) + 25 * ((n % 146097 - 1) / 36524)
            + ((n % 146097 - 1) % 36524 + 1) / 1461 := by omega
      have h100c : (400 * (n / 146097) + 100 * ((n % 146097 - 1) / 36524)
            + 4 * (((n % 146097 - 1) % 36524 + 1) / 1461) + 99) / 100
          = 4 * (n / 146097) + (n % 146097 - 1) / 36524 + 1 := by omega
      have h400c : (400 * (n / 146097) + 100 * ((n % 146097 - 1) / 36524)
            + 4 * (((n % 146097 - 1) % 36524 + 1) / 1461) + 399) / 400
          = n / 146097 + 1 := by omega
      omega
    · symm
      simp only [Bool.or_eq_false_iff, Bool.and_eq_false_iff,
        decide_eq_false_iff_not, decide_eq_true_eq, not_not, ne_eq,
        Bool.not_eq_true, Bool.or_eq_true, Bool.and_eq_true]
      have hd1 : 1 ≤ ((n % 146097 - 1) % 36524 + 1) / 1461 := by omega
      omega
  -- infeasible: remainder below 365 cannot reach 366 after mod 1461
  · exact absurd h4 (by omega)
  -- century step, no leap-day: non-leap century year
  · refine ⟨400 * (n / 146097) + 100 * ((n % 146097 - 1) / 36524)
        + 4 * ((n % 146097 - 1) % 36524 / 1461),
      (n % 146097 - 1) % 36524 % 1461, false,
      by rw [Prod.mk.injEq]; exact ⟨by ring, rfl⟩, ?_, by omega, by norm_num; omega, ?_⟩
    · have hd0 : (n % 146097 - 1) % 36524 / 1461 = 0 := by omega
      have h4c : (400 * (n / 146097) + 100 * ((n % 146097 - 1) / 36524)
            + 4 * ((n % 146097 - 1) % 36524 / 1461) + 3) / 4
          = 100 * (n / 146097) + 25 * ((n % 146097 - 1) / 36524)
            + (n % 146097 - 1) % 36524 / 1461 := by omega
      have h100c : (400 * (n / 146097) + 100 * ((n % 146097 - 1) / 36524)
            + 4 * ((n % 146097 - 1) % 36524 / 1461) + 99) / 100
          = 4 * (n / 146097) + (n % 146097 - 1) / 36524 := by omega
      have h400c : (400 * (n / 146097) + 100 * ((n % 146097 - 1) / 36524)
            + 4 * ((n % 146097 - 1) % 36524 / 1461) + 399) / 400
          = n / 146097 + 1 := by omega
      omega
    · symm
      simp only [Bool.or_eq_false_iff, Bool.and_eq_false_iff,
        decide_eq_false_iff_not, decide_eq_true_eq, not_not, ne_eq,
        Bool.not_eq_true, Bool.or_eq_true, Bool.and_eq_true]
      have hd0 : (n % 146097 - 1) % 36524 / 1461 = 0 := by omega
      omega
  -- no century step, year-remainder step: non-leap year
  · refine ⟨400 * (n / 146097) + 4 * (n % 146097 / 1461)
        + (n % 146097 % 1461 - 1) / 365,
      (n % 146097 % 1461 - 1) % 365, false,
      by rw [Prod.mk.injEq]; exact ⟨by ring, rfl⟩, ?_, by omega, by norm_num; omega, ?_⟩
    · have h4c : (400 * (n / 146097) + 4 * (n % 146097 / 1461)
            + (n % 146097 % 1461 - 1) / 365 + 3) / 4
          = 100 * (n / 146097) + n % 146097 / 1461 + 1 := by omega
      have h100c : (400 * (n / 146097) + 4 * (n % 146097 / 1461)
            + (n % 146097 % 1461 - 1) / 365 + 99) / 100
          = 4 * (n / 146097) + 1 := by omega
      have h400c : (400 * (n / 146097) + 4 * (n % 146097 / 1461)
            + (n % 146097 % 1461 - 1) / 365 + 399) / 400
          = n / 146097 + 1 := by omega
      omega
    · symm
      simp only [Bool.or_eq_false_iff, Bool.and_eq_false_iff,
        decide_eq_false_iff_not, decide_eq_true_eq, not_not, ne_eq,
        Bool.not_eq_true, Bool.or_eq_true, Bool.and_eq_true]
      omega
  -- no century step, no year-remainder step: leap year
  · refine ⟨400 * (n / 146097) + 4 * (n % 146097 / 1461),
      n % 146097 % 1461, true,
      by rw [Prod.mk.injEq]; exact ⟨by ring, rfl⟩, ?_, by omega, by norm_num; omega, ?_⟩
    · have h4c : (400 * (n / 146097) + 4 * (n % 146097 / 1461) + 3) / 4
          = 100 * (n / 146097) + n % 146097 / 1461 := by omega
      have hsubc : (400 * (n / 146097) + 4 * (n % 146097 / 1461) + 99) / 100
            - (400 * (n / 146097) + 4 * (n % 146097 / 1461) + 399) / 400
          = 3 * (n / 146097) := by omega
      omega
    · symm
      simp only [Bool.or_eq_false_iff, Bool.and_eq_false_iff,
        decide_eq_false_iff_not, decide_eq_true_eq, not_not, ne_eq,
        Bool.not_eq_true, Bool.or_eq_true, Bool.and_eq_true]
      omega

theorem jYearLen_eq (y : Int) :
    jYearStart (y + 1) - jYearStart y = if isJalaliLeap (979 + y) then 366 else 365 := by
  simp only [jYearStart, isJalaliLeap]
  split_ifs with h
  · simp only [Bool.or_eq_true, decide_eq_true_eq] at h
    omega
  · simp only [Bool.or_eq_true, decide_eq_true_eq] at h
    push_neg at h
    omega

theorem jYearSplit_spec (y doy : Int) (h0 : 0 ≤ doy)
    (h1 : jYearStart y + doy < jYearStart (y + 1)) :
    jYearSplit (jYearStart y + doy) = (979 + y, doy) := by
  simp only [jYearStart, jYearSplit] at h1 ⊢
  have hA : doy ≤ 365 := by omega
  have hB : y % 33 = 32 → doy ≤ 364 := by omega
  have hC : y % 33 % 4 ≠ 0 → doy ≤ 364 := by omega
  have hq : (365 * y + 8 * (y / 33) + (y % 33 + 3) / 4 + doy) / 12053 = y / 33 := by omega
  have hr : (365 * y + 8 * (y / 33) + (y % 33 + 3) / 4 + doy) % 12053
      = 365 * (y % 33) + (y % 33 + 3) / 4 + doy := by omega
  have hi : (365 * y + 8 * (y / 33) + (y % 33 + 3) / 4 + doy) % 12053 / 1461
      = y % 33 / 4 := by omega
  have hr2 : (365 * y + 8 * (y / 33) + (y % 33 + 3) / 4 + doy) % 12053 % 1461
      = 365 * (y % 33 % 4) + (y % 33 % 4 + 3) / 4 + doy := by omega
  split_ifs with h
  · have hs1 : 1 ≤ y % 33 % 4 := by omega
    have hj : ((365 * y + 8 * (y / 33) + (y % 33 + 3) / 4 + doy) % 12053 % 1461 - 1) / 365
        = y % 33 % 4 := by omega
    rw [Prod.mk.injEq]; constructor <;> omega
  · rw [Prod.mk.injEq]; constructor <;> omega

theorem daysBeforeMonth_zero (L : List Int) : daysBeforeMonth L 0 = 0 := by
  cases L <;> simp [daysBeforeMonth]

theorem monthLoop_spec (L : List Int) (i r : Int) (h0 : 0 ≤ r) :
    ∃ k, 0 ≤ k ∧ k ≤ (L.length : Int) ∧
      monthLoop L i r = (i + k, r - daysBeforeMonth L k) ∧
      daysBeforeMonth L k ≤ r ∧
      (k < (L.length : Int) → r < daysBeforeMonth L (k + 1)) := by
  induction L generalizing i r with
  | nil =>
    refine ⟨0, le_refl 0, by simp, ?_, ?_, ?_⟩
    · simp [monthLoop, daysBeforeMonth]
    · simp [daysBeforeMonth]; omega
    · simp
  | cons l ls ih =>
    by_cases hl : l ≤ r
    · obtain ⟨k, hk0, hklen, heq, hle, hlt⟩ := ih (i + 1) (r - l) (by omega)
      have hpre : daysBeforeMonth (l :: ls) (k + 1) = l + daysBeforeMonth ls k := by
        have h1k : (1 : Int) ≤ k + 1 := by omega
        have hk1 : k + 1 - 1 = k := by ring
        simp only [daysBeforeMonth, if_pos h1k, hk1]
      have hpre2 : daysBeforeMonth (l :: ls) (k + 1 + 1) = l + daysBeforeMonth ls (k + 1) := by
        have h1k : (1 : Int) ≤ k + 1 + 1 := by omega
        have hk1 : k + 1 + 1 - 1 = k + 1 := by ring
        simp only [daysBeforeMonth, if_pos h1k, hk1]
      refine ⟨k + 1, by omega, by simp; omega, ?_, ?_, ?_⟩
      · simp only [monthLoop, if_pos hl, heq, hpre, Prod.mk.injEq]
        constructor <;> ring
      · rw [hpre]; omega
      · intro hlen
        rw [hpre2]
        have : k < (ls.length : Int) := by simp at hlen; omega
        have := hlt this
        omega
    · refine ⟨0, le_refl 0, by simp; omega, ?_, ?_, ?_⟩
      · simp only [monthLoop, if_neg hl, daysBeforeMonth_zero, Prod.mk.injEq]
        constructor <;> ring
      · rw [daysBeforeMonth_zero]; omega
      · intro _
        have hpre : daysBeforeMonth (l :: ls) (0 + 1) = l + daysBeforeMonth ls 0 := by
          norm_num [daysBeforeMonth]
        rw [hpre, daysBeforeMonth_zero]
        omega

theorem jDaysTable_closed (k : Int) (h0 : 0 ≤ k) (h12 : k ≤ 12) :
    (k ≤ 6 → daysBeforeMonth jDaysTable k = 31 * k) ∧
    (7 ≤ k → k ≤ 11 → daysBeforeMonth jDaysTable k = 186 + 30 * (k - 6)) ∧
    (k = 12 → daysBeforeMonth jDaysTable k = 365) := by
  interval_cases k <;> norm_num [daysBeforeMonth, jDaysTable]

theorem jLoopTable_closed (k : Int) (h0 : 0 ≤ k) (h11 : k ≤ 11) :
    (k ≤ 6 → daysBeforeMonth jLoopTable k = 31 * k) ∧
    (7 ≤ k → daysBeforeMonth jLoopTable k = 186 + 30 * (k - 6)) := by
  interval_cases k <;> norm_num [daysBeforeMonth, jLoopTable]

theorem gMonthSplit_spec (leap : Bool) (r : Int) (h0 : 0 ≤ r)
    (h1 : r < 365 + (if leap then 1 else 0)) :
    daysBeforeMonth gDaysTable ((gMonthSplit leap r).1)
      + (if 2 < (gMonthSplit leap r).1 + 1 ∧ leap = true then 1 else 0)
      + (gMonthSplit leap r).2 = r ∧
    0 ≤ (gMonthSplit leap r).1 ∧ (gMonthSplit leap r).1 ≤ 11 := by
  obtain ⟨k, hk0, hklen, heq, hle, hlt⟩ := monthLoop_spec (gMonthTable leap) 0 r h0
  have hout : gMonthSplit leap r = (0 + k, r - daysBeforeMonth (gMonthTable leap) k) := heq
  have hlen : ((gMonthTable leap).length : Int) = 12 := by
    cases leap <;> simp [gMonthTable]
  rw [hlen] at hklen hlt
  cases leap with
  | false =>
    norm_num at h1
    have htab : gMonthTable false = gDaysTable := by norm_num [gMonthTable, gDaysTable]
    rw [htab] at hout hle hlt
    have hk11 : k ≤ 11 := by
      by_contra hgt
      have hk12 : k = 12 := by omega
      rw [hk12] at hle
      norm_num [gDaysTable, daysBeforeMonth] at hle
      omega
    rw [hout]
    norm_num
    omega
  | true =>
    norm_num at h1
    have hk11 : k ≤ 11 := by
      by_contra hgt
      have hk12 : k = 12 := by omega
      rw [hk12] at hle
      norm_num [gMonthTable, daysBeforeMonth] at hle
      omega
    have hdA : k ≤ 1 →
        daysBeforeMonth (gMonthTable true) k = daysBeforeMonth gDaysTable k := by
      intro hk1
      interval_cases k <;> norm_num [gMonthTable, gDaysTable, daysBeforeMonth]
    have hdB : 2 ≤ k →
        daysBeforeMonth (gMonthTable true) k = daysBeforeMonth gDaysTable k + 1 := by
      intro hk2
      interval_cases k <;> norm_num [gMonthTable, gDaysTable, daysBeforeMonth]
    rw [hout]
    norm_num
    constructor
    · split_ifs <;> omega
    · omega

theorem jMonthSplit_spec (m d : Int) (hm1 : 1 ≤ m) (hm2 : m ≤ 12) (hd1 : 1 ≤ d)
    (hd31 : d ≤ 31) (hd30 : 7 ≤ m → d ≤ 30) :
    jMonthSplit (daysBeforeMonth jDaysTable (m - 1) + (d - 1)) = (m - 1, d - 1) := by
  have hcfm := jDaysTable_closed (m - 1) (by omega) (by omega)
  have hdoy0 : 0 ≤ daysBeforeMonth jDaysTable (m - 1) + (d - 1) := by omega
  obtain ⟨k, hk0, hklen, heq, hle, hlt⟩ :=
    monthLoop_spec jLoopTable 0 (daysBeforeMonth jDaysTable (m - 1) + (d - 1)) hdoy0
  have hlen : ((jLoopTable).length : Int) = 11 := by simp [jLoopTable]
  rw [hlen] at hklen hlt
  have hcfk := jLoopTable_closed k hk0 hklen
  have hcfk1 : k < 11 →
      (k + 1 ≤ 6 → daysBeforeMonth jLoopTable (k + 1) = 31 * (k + 1)) ∧
      (7 ≤ k + 1 → daysBeforeMonth jLoopTable (k + 1) = 186 + 30 * (k + 1 - 6)) := by
    intro hk11
    exact jLoopTable_closed (k + 1) (by omega) (by omega)
  unfold jMonthSplit
  rw [heq, Prod.mk.injEq]
  constructor <;> omega

theorem jDoy_bounds (y m d : Int) (hm1 : 1 ≤ m) (hm2 : m ≤ 12) (hd1 : 1 ≤ d)
    (hd2 : d ≤ jDaysInMonth y m) :
    0 ≤ daysBeforeMonth jDaysTable (m - 1) + (d - 1) ∧
    jYearStart (y - 979) + (daysBeforeMonth jDaysTable (m - 1) + (d - 1))
      < jYearStart (y - 979 + 1) := by
  have hlen := jYearLen_eq (y - 979)
  rw [show (979 : Int) + (y - 979) = y from by ring] at hlen
  have hcf := jDaysTable_closed (m - 1) (by omega) (by omega)
  unfold jDaysInMonth at hd2
  constructor
  · omega
  · split_ifs at hd2 hlen <;> omega

theorem gDayNumber_gFromDayNumber (n : Int) :
    gDayNumber (gFromDayNumber n).1 (gFromDayNumber n).2.1 (gFromDayNumber n).2.2 = n := by
  obtain ⟨y, r, leap, hsplit, hsum, hr0, hrlt, hleap⟩ := gYearSplit_spec n
  obtain ⟨hrec, hm0, hm11⟩ := gMonthSplit_spec leap r hr0 hrlt
  simp only [gFromDayNumber, gDayNumber, hsplit]
  rw [show ∀ z : Int, 1600 + z - 1600 = z from fun z => by ring]
  rw [show (gMonthSplit leap r).1 + 1 - 1 = (gMonthSplit leap r).1 from by ring]
  rw [show (gMonthSplit leap r).2 + 1 - 1 = (gMonthSplit leap r).2 from by ring]
  rw [← hleap]
  split_ifs at hrec ⊢ <;> omega

/-- Anchor check of the embedded conversion: Jalali 1403/01/01 (Nowruz)
is Gregorian 2024-03-20, and back. -/
theorem conversion_anchor_nowruz :
    jalali_to_gregorian 1403 1 1 = (2024, 3, 20) ∧
    gregorian_to_jalali 2024 3 20 = (1403, 1, 1) := by
  constructor <;> rfl

/-- Anchor check at a leap-year boundary: Jalali 1399/12/30 (1399 is a
leap year) is Gregorian 2021-03-20. -/
theorem conversion_anchor_leap_boundary :
    jalali_to_gregorian 1399 12 30 = (2021, 3, 20) ∧
    gregorian_to_jalali 2021 3 20 = (1399, 12, 30) := by
  constructor <;> rfl

/-- Claim C1: for every valid Jalali date (any year, `1 ≤ month ≤ 12`,
`1 ≤ day ≤ days_in_month`), converting with `jalali_to_gregorian` and
converting the result back with `gregorian_to_jalali` yields the
identical `(year, month, day)` triple. -/
theorem jalali_gregorian_roundtrip (jy jm jd : Int) (hm1 : 1 ≤ jm) (hm2 : jm ≤ 12)
    (hd1 : 1 ≤ jd) (hd2 : jd ≤ jDaysInMonth jy jm) :
    gregorian_to_jalali (jalali_to_gregorian jy jm jd).1
      (jalali_to_gregorian jy jm jd).2.1 (jalali_to_gregorian jy jm jd).2.2
      = (jy, jm, jd) := by
  obtain ⟨hb0, hblt⟩ := jDoy_bounds jy jm jd hm1 hm2 hd1 hd2
  have hysplit := jYearSplit_spec (jy - 979)
      (daysBeforeMonth jDaysTable (jm - 1) + (jd - 1)) hb0 hblt
  have hd31 : jd ≤ 31 ∧ (7 ≤ jm → jd ≤ 30) := by
    unfold jDaysInMonth at hd2
    split_ifs at hd2 <;> exact ⟨by omega, by omega⟩
  have hmsplit := jMonthSplit_spec jm jd hm1 hm2 hd1 hd31.1 hd31.2
  have hg := gDayNumber_gFromDayNumber (jDayNumber jy jm jd + 79)
  simp only [jalali_to_gregorian, gregorian_to_jalali]
  rw [hg]
  rw [show jDayNumber jy jm jd + 79 - 79 = jDayNumber jy jm jd from by ring]
  simp only [jFromDayNumber, jDayNumber, hysplit, hmsplit]
  rw [Prod.mk.injEq, Prod.mk.injEq]
  refine ⟨by ring, by ring, by ring⟩

/-- Witness for C1: the round trip evaluated at the concrete valid date
1403/05/15 (Mordad 15th, 1403). -/
theorem jalali_gregorian_roundtrip_witness :
    gregorian_to_jalali (jalali_to_gregorian 1403 5 15).1
      (jalali_to_gregorian 1403 5 15).2.1 (jalali_to_gregorian 1403 5 15).2.2
      = (1403, 5, 15) :=
  jalali_gregorian_roundtrip 1403 5 15 (by decide) (by decide) (by decide) (by decide)

/-! ### Salary calculation and commit (claims C3, C8, C9, C10) -/

/-- Claim C3: every salary breakdown returned by `calculate_coach_salary`
(given an active rate and an existing sheet, i.e. the non-error outcome)
satisfies `final_amount = sessions_attended × session_rate +
manual_adjustment`, `base_amount = sessions_attended × session_rate`, and
`sessions_absent = max(sessions_total − sessions_attended −
sessions_excused, 0)`, hence `sessions_absent ≥ 0`. -/
theorem calculate_coach_salary_invariants (rate : Option Int) (ctx : Option SheetCtx)
    (adj : Int) (bd : SalaryBreakdown)
    (h : calculate_coach_salary rate ctx adj = .ok bd) :
    bd.final_amount = bd.sessions_attended * bd.session_rate + bd.manual_adjustment ∧
    bd.base_amount = bd.sessions_attended * bd.session_rate ∧
    bd.sessions_absent
      = max (bd.sessions_total - bd.sessions_attended - bd.sessions_excused) 0 ∧
    0 ≤ bd.sessions_absent := by
  cases rate with
  | none => simp [calculate_coach_salary] at h
  | some r =>
    cases ctx with
    | none => simp [calculate_coach_salary] at h
    | some sheet =>
      simp only [calculate_coach_salary, Except.ok.injEq] at h
      subst h
      refine ⟨by dsimp only; ring, by dsimp only; ring, rfl, ?_⟩
      exact le_max_right _ _

/-- Witness for C3: the breakdown for a 4-session sheet with three present
rows and one excused row at rate 500000 and adjustment −50000 (the worked
example of the specification). -/
theorem calculate_coach_salary_invariants_witness :
    (1450000 : Int) = 3 * 500000 + (-50000) ∧
    (1500000 : Int) = 3 * 500000 ∧
    (0 : Int) = max (4 - 3 - 1) 0 ∧
    (0 : Int) ≤ 0 :=
  calculate_coach_salary_invariants (some 500000)
    (some ⟨4, [.present, .present, .present, .excused]⟩) (-50000)
    ⟨4, 3, 0, 1, 500000, 1500000, -50000, 1450000⟩ (by rfl)

/-- Counterexample for C8: with a failing notification,
`commit_coach_salary` errors out of the atomic block and the salary row
is not persisted — starting from an empty store, no `.ok` state (which
would carry the written row) is produced, contradicting the claim that
the `CoachSalary` record is still persisted. -/
theorem commit_notify_failure_not_persisted :
    commit_coach_salary [] [] 1 2 3 3 500000 (-50000) "" (some 7) (some 8) true
      = .error .notificationFailed := rfl

/-- Claim C8 (amended): `commit_coach_salary` runs inside one
`transaction.atomic` block with no exception handler around the
notification, so a notification failure for a coach with a user account
propagates and rolls the salary upsert back (the call errors, producing
no state); only when notification succeeds — or the coach has no user —
is the upserted salary committed. -/
theorem commit_coach_salary_rollback (salaries : List CoachSalary) (notifs : List Nat)
    (c cat sheet : Nat) (attended rate adj : Int) (reason : String)
    (processedBy : Option Nat) :
    (∀ u, commit_coach_salary salaries notifs c cat sheet attended rate adj reason
        (some u) processedBy true = .error .notificationFailed) ∧
    (∀ coachUserId, commit_coach_salary salaries notifs c cat sheet attended rate adj reason
        coachUserId processedBy false
      = .ok (update_or_create_salary salaries c cat sheet attended rate adj reason processedBy,
          notifs ++ coachUserId.toList)) := by
  constructor
  · intro u
    rfl
  · intro cu
    cases cu with
    | none => simp [commit_coach_salary]
    | some u => rfl

/-- Witness for C8 (amended): both branches at a concrete one-row store. -/
theorem commit_coach_salary_rollback_witness :
    commit_coach_salary [] [5] 4 6 8 2 100 0 "" (some 9) (some 1) true
        = .error .notificationFailed ∧
    commit_coach_salary [] [5] 4 6 8 2 100 0 "" (some 9) (some 1) false
        = .ok (update_or_create_salary [] 4 6 8 2 100 0 "" (some 1), [5] ++ [9]) :=
  ⟨(commit_coach_salary_rollback [] [5] 4 6 8 2 100 0 "" (some 1)).1 9,
   (commit_coach_salary_rollback [] [5] 4 6 8 2 100 0 "" (some 1)).2 (some 9)⟩

/-- Counterexample for C9: posting `confirm` on a salary that is still in
the `calculated` state neither raises an error nor changes the record —
the view falls through silently, contradicting the claim that every
wrong-state confirm fails with an error. -/
theorem coach_confirm_silent_noop :
    coach_confirm_salary_post
        ⟨1, 2, 3, 3, 500000, 1500000, -50000, "", 1450000, .calculated, none, none, false, none⟩
        .confirm 2 5
      = ⟨⟨1, 2, 3, 3, 500000, 1500000, -50000, "", 1450000, .calculated, none, none, false, none⟩,
         0, false⟩ := by
  rfl

/-- Claim C9 (amended): the `CoachSalary` status machine is `calculated →
approved → paid → confirmed`; `approve_salary` and `mark_salary_paid`
fail with an error and change nothing outside their source state
(`mark_salary_paid` also sets the paid timestamp and processor); the
coach-initiated confirm succeeds only from `paid`, but from any other
state it is a silent no-op (record unchanged, no error raised, no
notification); `dispute` never changes the status — it only notifies the
finance staff. -/
theorem salary_state_machine (s : CoachSalary) (u now fm : Nat) :
    (s.salstatus = .calculated →
      approve_salary s u = .ok { s with salstatus := .approved, processedBy := some u }) ∧
    (s.salstatus ≠ .calculated → approve_salary s u = .error .invalidState) ∧
    (s.salstatus = .approved →
      mark_salary_paid s u now
        = .ok { s with salstatus := .paid, paidAt := some now, processedBy := some u }) ∧
    (s.salstatus ≠ .approved → mark_salary_paid s u now = .error .invalidState) ∧
    (s.salstatus = .paid →
      coach_confirm_salary_post s .confirm fm now
        = ⟨{ s with
              salstatus := .confirmed
              coach_confirmed := true
              coachConfirmedAt := some now }, fm, false⟩) ∧
    (s.salstatus ≠ .paid →
      coach_confirm_salary_post s .confirm fm now = ⟨s, 0, false⟩) ∧
    coach_confirm_salary_post s .dispute fm now = ⟨s, fm, false⟩ := by
  refine ⟨fun h => ?_, fun h => ?_, fun h => ?_, fun h => ?_, fun h => ?_, fun h => ?_, ?_⟩
  · simp [approve_salary, h]
  · simp [approve_salary, h]
  · simp [mark_salary_paid, h]
  · simp [mark_salary_paid, h]
  · simp [coach_confirm_salary_post, h]
  · simp [coach_confirm_salary_post, h]
  · simp [coach_confirm_salary_post]

/-- Witness for C9 (amended): the machine evaluated on a concrete
`calculated` salary row. -/
theorem salary_state_machine_witness :
    approve_salary
        ⟨1, 2, 3, 2, 100, 200, 0, "", 200, .calculated, none, none, false, none⟩ 7
      = .ok ⟨1, 2, 3, 2, 100, 200, 0, "", 200, .approved, none, some 7, false, none⟩ :=
  (salary_state_machine
      ⟨1, 2, 3, 2, 100, 200, 0, "", 200, .calculated, none, none, false, none⟩ 7 11 4).1 rfl

/-- Claim C10: committing a breakdown for a `(coach, category, sheet)`
whose salary row already exists and has advanced past `calculated`
silently rewrites that row — amounts are overwritten and the status is
reset to `calculated` — instead of rejecting the recomputation or
preserving the advanced status. -/
theorem commit_resets_advanced_status (salaries : List CoachSalary) (notifs : List Nat)
    (c cat sheet : Nat) (attended rate adj : Int) (reason : String)
    (processedBy : Option Nat) (R : CoachSalary)
    (hmem : R ∈ salaries) (hkey : salaryKeyIs R c cat sheet = true)
    (hadv : R.salstatus ≠ .calculated) :
    ∀ coachUserId, ∃ out,
      commit_coach_salary salaries notifs c cat sheet attended rate adj reason
          coachUserId processedBy false = .ok out ∧
      { R with
        sessions_attended := attended
        session_rate := rate
        base_amount := attended * rate
        manual_adjustment := adj
        adjustment_reason := reason
        final_amount := attended * rate + adj
        salstatus := .calculated
        processedBy := processedBy } ∈ out.1 := by
  intro cu
  refine ⟨(update_or_create_salary salaries c cat sheet attended rate adj reason processedBy,
    notifs ++ cu.toList), ?_, ?_⟩
  · cases cu with
    | none => simp [commit_coach_salary]
    | some u => rfl
  · unfold update_or_create_salary
    rw [if_pos (List.any_eq_true.mpr ⟨R, hmem, hkey⟩)]
    have := List.mem_map_of_mem
      (fun s => if salaryKeyIs s c cat sheet then
        { s with
          sessions_attended := attended
          session_rate := rate
          base_amount := attended * rate
          manual_adjustment := adj
          adjustment_reason := reason
          final_amount := attended * rate + adj
          salstatus := SalaryStatus.calculated
          processedBy := processedBy }
        else s) hmem
    simp only [hkey, if_true] at this
    exact this

/-- Witness for C10: recommitting over a store holding a `paid` row for
the same key resets it to `calculated` with the new amounts. -/
theorem commit_resets_advanced_status_witness :
    ∃ out,
      commit_coach_salary
          [⟨1, 2, 3, 4, 100, 400, 0, "", 400, .paid, some 44, some 5, false, none⟩] []
          1 2 3 6 200 10 "r" none (some 9) false = .ok out ∧
      (⟨1, 2, 3, 6, 200, 6 * 200, 10, "r", 6 * 200 + 10, .calculated, some 44, some 9,
          false, none⟩ : CoachSalary) ∈ out.1 :=
  commit_resets_advanced_status
    [⟨1, 2, 3, 4, 100, 400, 0, "", 400, .paid, some 44, some 5, false, none⟩] []
    1 2 3 6 200 10 "r" (some 9)
    ⟨1, 2, 3, 4, 100, 400, 0, "", 400, .paid, some 44, some 5, false, none⟩
    (by simp) (by rfl) (by simp) none

/-! ### Invoice generation (claim C2) -/

theorem invoiceStep_skips (cat : Nat) (fee : Int) (jy jm : Int)
    (acc : List PlayerInvoice × Nat × Nat) (p : Nat)
    (h : hasInvoice acc.1 p cat jy jm = true) :
    invoiceStep cat fee jy jm acc p = (acc.1, acc.2.1, acc.2.2 + 1) := by
  unfold invoiceStep
  unfold hasInvoice at h
  rw [if_pos h]

theorem invoiceStep_creates (cat : Nat) (fee : Int) (jy jm : Int)
    (acc : List PlayerInvoice × Nat × Nat) (p : Nat)
    (h : hasInvoice acc.1 p cat jy jm = false) :
    invoiceStep cat fee jy jm acc p
      = (acc.1 ++ [⟨p, cat, jy, jm, fee, 0, fee - 0, .pending⟩], acc.2.1 + 1, acc.2.2) := by
  unfold invoiceStep
  unfold hasInvoice at h
  rw [if_neg (by rw [h]; exact Bool.false_ne_true)]

theorem hasInvoice_append (invs tail : List PlayerInvoice) (p cat : Nat) (jy jm : Int)
    (h : hasInvoice invs p cat jy jm = true) :
    hasInvoice (invs ++ tail) p cat jy jm = true := by
  simp only [hasInvoice, List.any_append, Bool.or_eq_true]
  exact Or.inl h

theorem hasInvoice_append_single (invs : List PlayerInvoice) (inv : PlayerInvoice)
    (p cat : Nat) (jy jm : Int) :
    hasInvoice (invs ++ [inv]) p cat jy jm
      = (hasInvoice invs p cat jy jm || invoiceKeyIs inv p cat jy jm) := by
  simp [hasInvoice, List.any_append]

theorem invoiceFold_all_present (cat : Nat) (fee : Int) (jy jm : Int) :
    ∀ (ids : List Nat) (acc : List PlayerInvoice × Nat × Nat),
      (∀ p ∈ ids, hasInvoice acc.1 p cat jy jm = true) →
      ids.foldl (invoiceStep cat fee jy jm) acc
        = (acc.1, acc.2.1, acc.2.2 + ids.length) := by
  intro ids
  induction ids with
  | nil => intro acc _; simp
  | cons p t ih =>
    intro acc h
    rw [List.foldl_cons, invoiceStep_skips cat fee jy jm acc p (h p (by simp))]
    rw [ih (acc.1, acc.2.1, acc.2.2 + 1) (fun q hq => h q (by simp [hq]))]
    rw [List.length_cons]
    rw [show acc.2.2 + 1 + t.length = acc.2.2 + (t.length + 1) from by omega]

theorem invoiceFold_extends (cat : Nat) (fee : Int) (jy jm : Int) :
    ∀ (ids : List Nat) (acc : List PlayerInvoice × Nat × Nat),
      ∃ tail, (ids.foldl (invoiceStep cat fee jy jm) acc).1 = acc.1 ++ tail := by
  intro ids
  induction ids with
  | nil => intro acc; exact ⟨[], by simp⟩
  | cons p t ih =>
    intro acc
    rw [List.foldl_cons]
    rcases h : hasInvoice acc.1 p cat jy jm with _ | _
    · rw [invoiceStep_creates cat fee jy jm acc p h]
      obtain ⟨tail, htail⟩ := ih (acc.1 ++ [⟨p, cat, jy, jm, fee, 0, fee - 0, .pending⟩],
        acc.2.1 + 1, acc.2.2)
      exact ⟨[⟨p, cat, jy, jm, fee, 0, fee - 0, .pending⟩] ++ tail, by
        rw [htail, List.append_assoc]⟩
    · rw [invoiceStep_skips cat fee jy jm acc p h]
      exact ih (acc.1, acc.2.1, acc.2.2 + 1)

theorem invoiceFold_covers (cat : Nat) (fee : Int) (jy jm : Int) :
    ∀ (ids : List Nat) (acc : List PlayerInvoice × Nat × Nat),
      ∀ p ∈ ids, hasInvoice (ids.foldl (invoiceStep cat fee jy jm) acc).1 p cat jy jm
        = true := by
  intro ids
  induction ids with
  | nil => intro acc p hp; cases hp
  | cons q t ih =>
    intro acc p hp
    rw [List.foldl_cons]
    rcases List.mem_cons.mp hp with rfl | hpt
    · rcases h : hasInvoice acc.1 p cat jy jm with _ | _
      · rw [invoiceStep_creates cat fee jy jm acc p h]
        obtain ⟨tail, htail⟩ := invoiceFold_extends cat fee jy jm t
          (acc.1 ++ [⟨p, cat, jy, jm, fee, 0, fee - 0, .pending⟩], acc.2.1 + 1, acc.2.2)
        rw [htail]
        apply hasInvoice_append
        rw [hasInvoice_append_single]
        have hks : invoiceKeyIs ⟨p, cat, jy, jm, fee, 0, fee - 0, .pending⟩ p cat jy jm
            = true := by
          simp [invoiceKeyIs]
        rw [hks, Bool.or_true]
      · rw [invoiceStep_skips cat fee jy jm acc p h]
        obtain ⟨tail, htail⟩ := invoiceFold_extends cat fee jy jm t
          (acc.1, acc.2.1, acc.2.2 + 1)
        rw [htail]
        exact hasInvoice_append _ _ _ _ _ _ h
    · exact ih _ p hpt

theorem invoiceFold_creates_all (cat : Nat) (fee : Int) (jy jm : Int) :
    ∀ (ids : List Nat) (acc : List PlayerInvoice × Nat × Nat),
      ids.Nodup →
      (∀ p ∈ ids, hasInvoice acc.1 p cat jy jm = false) →
      (ids.foldl (invoiceStep cat fee jy jm) acc).2.1 = acc.2.1 + ids.length := by
  intro ids
  induction ids with
  | nil => intro acc _ _; simp
  | cons p t ih =>
    intro acc hnd hf
    rw [List.foldl_cons, invoiceStep_creates cat fee jy jm acc p (hf p (by simp))]
    have hnd' := (List.nodup_cons.mp hnd).2
    have hpn := (List.nodup_cons.mp hnd).1
    have hf' : ∀ q ∈ t, hasInvoice
        (acc.1 ++ [⟨p, cat, jy, jm, fee, 0, fee - 0, .pending⟩]) q cat jy jm = false := by
      intro q hq
      rw [hasInvoice_append_single, hf q (by simp [hq])]
      have hkf : invoiceKeyIs ⟨p, cat, jy, jm, fee, 0, fee - 0, .pending⟩ q cat jy jm
          = false := by
        have hpq : p ≠ q := fun hpq => hpn (hpq ▸ hq)
        simp [invoiceKeyIs, hpq]
      rw [hkf]
      rfl
    rw [ih _ hnd' hf']
    simp only [List.length_cons]
    omega

/-- Claim C2: starting from a store with no invoice for the month, running
`generate_monthly_invoices` twice for the same `(category, month)` over
the same players leaves the invoice table exactly as after the first run
(so no invoice's amount, discount or status changes even if the monthly
fee changed in between), and the second batch reports `created = 0` and
`skipped` equal to the first run's `created`. -/
theorem generate_monthly_invoices_idempotent (players : List PlayerRec) (cat : Nat)
    (fee1 fee2 : Int) (jy jm : Int) (s0 : List PlayerInvoice)
    (hnodup : (activePlayerIds players).Nodup)
    (hfresh : ∀ p ∈ activePlayerIds players, hasInvoice s0 p cat jy jm = false) :
    (generate_monthly_invoices players cat fee2 jy jm
        (generate_monthly_invoices players cat fee1 jy jm s0).1).1
      = (generate_monthly_invoices players cat fee1 jy jm s0).1 ∧
    (generate_monthly_invoices players cat fee2 jy jm
        (generate_monthly_invoices players cat fee1 jy jm s0).1).2.created_count = 0 ∧
    (generate_monthly_invoices players cat fee2 jy jm
        (generate_monthly_invoices players cat fee1 jy jm s0).1).2.skipped_count
      = (generate_monthly_invoices players cat fee1 jy jm s0).2.created_count ∧
    (generate_monthly_invoices players cat fee2 jy jm
        (generate_monthly_invoices players cat fee1 jy jm s0).1).2.error_count = 0 := by
  have h2 := invoiceFold_all_present cat fee2 jy jm (activePlayerIds players)
      (((activePlayerIds players).foldl (invoiceStep cat fee1 jy jm) (s0, 0, 0)).1, 0, 0)
      (fun p hp => invoiceFold_covers cat fee1 jy jm (activePlayerIds players) (s0, 0, 0) p hp)
  have h1 := invoiceFold_creates_all cat fee1 jy jm (activePlayerIds players) (s0, 0, 0)
      hnodup hfresh
  refine ⟨?_, ?_, ?_, ?_⟩ <;> simp only [generate_monthly_invoices] <;> rw [h2] <;>
    dsimp only
  · rw [h1]

/-- Witness for C2: two players, fee changed from 1000 to 2000 between the
runs; the table after the second run equals that after the first, the
second batch creates nothing and skips exactly the two created first. -/
theorem generate_monthly_invoices_idempotent_witness :
    (generate_monthly_invoices [⟨1, .approved, false⟩, ⟨2, .approved, false⟩] 9 2000 1404 7
        (generate_monthly_invoices [⟨1, .approved, false⟩, ⟨2, .approved, false⟩]
          9 1000 1404 7 []).1).1
      = (generate_monthly_invoices [⟨1, .approved, false⟩, ⟨2, .approved, false⟩]
          9 1000 1404 7 []).1 ∧
    (generate_monthly_invoices [⟨1, .approved, false⟩, ⟨2, .approved, false⟩] 9 2000 1404 7
        (generate_monthly_invoices [⟨1, .approved, false⟩, ⟨2, .approved, false⟩]
          9 1000 1404 7 []).1).2.created_count = 0 ∧
    (generate_monthly_invoices [⟨1, .approved, false⟩, ⟨2, .approved, false⟩] 9 2000 1404 7
        (generate_monthly_invoices [⟨1, .approved, false⟩, ⟨2, .approved, false⟩]
          9 1000 1404 7 []).1).2.skipped_count
      = (generate_monthly_invoices [⟨1, .approved, false⟩, ⟨2, .approved, false⟩]
          9 1000 1404 7 []).2.created_count ∧
    (generate_monthly_invoices [⟨1, .approved, false⟩, ⟨2, .approved, false⟩] 9 2000 1404 7
        (generate_monthly_invoices [⟨1, .approved, false⟩, ⟨2, .approved, false⟩]
          9 1000 1404 7 []).1).2.error_count = 0 :=
  generate_monthly_invoices_idempotent [⟨1, .approved, false⟩, ⟨2, .approved, false⟩]
    9 1000 2000 1404 7 [] (by decide) (by decide)

/-! ### Attendance recording (claim C4) -/

theorem attKeys_append (a b : List AttRow) :
    attKeys (a ++ b) = attKeys a ++ attKeys b := by
  simp [attKeys]

theorem attKeys_map_preserving (rows : List AttRow) (f : AttRow → AttRow)
    (hf : ∀ r, (f r).entityId = r.entityId) :
    attKeys (rows.map f) = attKeys rows := by
  unfold attKeys
  rw [List.map_map]
  exact List.map_congr_left (fun r _ => hf r)

theorem upsert_update_id (e : AttEntry) :
    ∀ r : AttRow,
      ((if r.entityId == e.entityId then
        { r with status := e.status.getD .absent, note := e.note.getD "" }
      else r)).entityId = r.entityId := by
  intro r
  split <;> rfl

theorem attKeys_upsert (rows : List AttRow) (e : AttEntry) :
    attKeys (upsertAttendance rows e)
      = if rows.any (fun r => r.entityId == e.entityId) then attKeys rows
        else attKeys rows ++ [e.entityId] := by
  unfold upsertAttendance
  split_ifs with h
  · exact attKeys_map_preserving rows _ (upsert_update_id e)
  · rw [attKeys_append]
    rfl

theorem mem_attKeys_of_any (rows : List AttRow) (k : Nat)
    (h : rows.any (fun r => r.entityId == k) = true) : k ∈ attKeys rows := by
  obtain ⟨r, hr, hbe⟩ := List.any_eq_true.mp h
  exact List.mem_map.mpr ⟨r, hr, by simpa using hbe⟩

theorem not_mem_attKeys_of_not_any (rows : List AttRow) (k : Nat)
    (h : rows.any (fun r => r.entityId == k) = false) : k ∉ attKeys rows := by
  intro hk
  obtain ⟨r, hr, hre⟩ := List.mem_map.mp hk
  have := List.any_eq_false.mp h r hr
  simp [hre] at this

theorem attKeys_upsert_nodup (rows : List AttRow) (e : AttEntry)
    (hnd : (attKeys rows).Nodup) : (attKeys (upsertAttendance rows e)).Nodup := by
  rw [attKeys_upsert]
  split_ifs with h
  · exact hnd
  · rw [List.nodup_append]
    refine ⟨hnd, List.nodup_singleton _, ?_⟩
    intro k hk hk1
    rw [List.mem_singleton] at hk1
    subst hk1
    exact not_mem_attKeys_of_not_any rows e.entityId (Bool.eq_false_iff.mpr h) hk

theorem countKey_eq_count (rows : List AttRow) (k : Nat) :
    countKey rows k = (attKeys rows).count k := by
  induction rows with
  | nil => rfl
  | cons r t ih =>
    by_cases h : r.entityId = k
    · simp only [countKey, attKeys, List.map_cons, List.filter_cons] at *
      rw [List.count_cons]
      simp [h, ih]
    · simp only [countKey, attKeys, List.map_cons, List.filter_cons] at *
      rw [List.count_cons]
      simp [h, ih]

theorem countKey_append (a b : List AttRow) (k : Nat) :
    countKey (a ++ b) k = countKey a k + countKey b k := by
  unfold countKey
  rw [List.filter_append, List.length_append]

theorem countKey_map_preserving (rows : List AttRow) (f : AttRow → AttRow) (k : Nat)
    (hf : ∀ r, (f r).entityId = r.entityId) :
    countKey (rows.map f) k = countKey rows k := by
  rw [countKey_eq_count, countKey_eq_count, attKeys_map_preserving rows f hf]

theorem countKey_upsert_self (rows : List AttRow) (e : AttEntry)
    (hnd : (attKeys rows).Nodup) :
    countKey (upsertAttendance rows e) e.entityId = 1 := by
  unfold upsertAttendance
  split_ifs with h
  · rw [countKey_map_preserving rows _ _ (upsert_update_id e), countKey_eq_count]
    have h1 : 0 < (attKeys rows).count e.entityId :=
      List.count_pos_iff.mpr (mem_attKeys_of_any rows e.entityId h)
    have h2 := List.nodup_iff_count_le_one.mp hnd e.entityId
    omega
  · rw [countKey_append, countKey_eq_count]
    have h0 : (attKeys rows).count e.entityId = 0 :=
      List.count_eq_zero.mpr (not_mem_attKeys_of_not_any rows e.entityId
        (Bool.eq_false_iff.mpr h))
    rw [h0]
    simp [countKey]

theorem countKey_upsert_other (rows : List AttRow) (e : AttEntry) (k : Nat)
    (hk : k ≠ e.entityId) :
    countKey (upsertAttendance rows e) k = countKey rows k := by
  unfold upsertAttendance
  split_ifs with h
  · exact countKey_map_preserving rows _ _ (upsert_update_id e)
  · rw [countKey_append]
    have : countKey [(⟨e.entityId, e.status.getD .absent, e.note.getD ""⟩ : AttRow)] k
        = 0 := by
      simp only [countKey, List.filter_cons, List.filter_nil]
      rw [if_neg (by simp; exact fun hc => hk hc.symm)]
      rfl
    rw [this]
    rfl

theorem foldUpsert_nodup (data : List AttEntry) :
    ∀ rows : List AttRow, (attKeys rows).Nodup →
      (attKeys (data.foldl upsertAttendance rows)).Nodup := by
  induction data with
  | nil => intro rows h; exact h
  | cons e t ih =>
    intro rows h
    exact ih (upsertAttendance rows e) (attKeys_upsert_nodup rows e h)

theorem foldUpsert_countKey_one (data : List AttEntry) :
    ∀ rows : List AttRow, (attKeys rows).Nodup → ∀ k,
      countKey rows k = 1 →
      countKey (data.foldl upsertAttendance rows) k = 1 := by
  induction data with
  | nil => intro rows _ k hk; exact hk
  | cons e t ih =>
    intro rows hnd k hk
    rw [List.foldl_cons]
    refine ih (upsertAttendance rows e) (attKeys_upsert_nodup rows e hnd) k ?_
    by_cases hke : k = e.entityId
    · subst hke
      exact countKey_upsert_self rows e hnd
    · rw [countKey_upsert_other rows e k hke]
      exact hk

theorem foldUpsert_covers (data : List AttEntry) :
    ∀ rows : List AttRow, (attKeys rows).Nodup → ∀ e ∈ data,
      countKey (data.foldl upsertAttendance rows) e.entityId = 1 := by
  induction data with
  | nil => intro rows _ e he; cases he
  | cons e0 t ih =>
    intro rows hnd e he
    rw [List.foldl_cons]
    rcases List.mem_cons.mp he with rfl | het
    · exact foldUpsert_countKey_one t (upsertAttendance rows e)
        (attKeys_upsert_nodup rows e hnd) e.entityId
        (countKey_upsert_self rows e hnd)
    · exact ih (upsertAttendance rows e0) (attKeys_upsert_nodup rows e0 hnd) e het

/-- Claim C4: on a finalized sheet both recording operations fail with the
finalized-sheet error and produce no attendance state at all; on a
non-finalized sheet the call succeeds and every entry of the list is
upserted keyed by the entity — afterwards each listed entity has exactly
one row and the keys stay duplicate-free. -/
theorem record_attendance_finalization (rows : List AttRow)
    (attendance_data : List AttEntry) :
    record_player_attendance true rows attendance_data = .error .finalizedSheet ∧
    record_coach_attendance true rows attendance_data = .error .finalizedSheet ∧
    ((attKeys rows).Nodup →
      record_player_attendance false rows attendance_data
        = .ok (attendance_data.foldl upsertAttendance rows) ∧
      record_coach_attendance false rows attendance_data
        = .ok (attendance_data.foldl upsertAttendance rows) ∧
      (attKeys (attendance_data.foldl upsertAttendance rows)).Nodup ∧
      (∀ e ∈ attendance_data,
        countKey (attendance_data.foldl upsertAttendance rows) e.entityId = 1)) := by
  refine ⟨rfl, rfl, fun hnd => ⟨rfl, rfl, foldUpsert_nodup attendance_data rows hnd, ?_⟩⟩
  exact foldUpsert_covers attendance_data rows hnd

/-- Witness for C4: a finalized sheet rejects a two-entry batch; the same
batch on an open sheet yields duplicate-free rows with one row per listed
entity. -/
theorem record_attendance_finalization_witness :
    record_player_attendance true [⟨42, .absent, ""⟩]
        [⟨42, some .present, none⟩, ⟨17, none, none⟩] = .error .finalizedSheet ∧
    countKey ([(⟨42, some .present, none⟩ : AttEntry), ⟨17, none, none⟩].foldl
        upsertAttendance [⟨42, .absent, ""⟩]) 42 = 1 :=
  ⟨(record_attendance_finalization [⟨42, .absent, ""⟩]
      [⟨42, some .present, none⟩, ⟨17, none, none⟩]).1,
   ((record_attendance_finalization [⟨42, .absent, ""⟩]
      [⟨42, some .present, none⟩, ⟨17, none, none⟩]).2.2 (by decide)).2.2.2
     ⟨42, some .present, none⟩ (by decide)⟩

/-! ### Attendance matrix (claim C5) -/

/-- Claim C5: the matrix has exactly one row per approved, non-archived
player of the category and one row per active coach holding an active rate
for it; every row carries one status column per session in order, the
status defaults to absent whenever no attendance record exists for the
(session, entity) pair, and the attendance percentage is
`round(present / total * 100, 1)`, `0` when there are no sessions. -/
theorem build_attendance_matrix_complete
    (sessionIds : List Nat) (players : List PlayerRec) (coaches : List CoachRec)
    (rates : List RateRec) (catId : Nat) (attP attC : List (Nat × Nat × AttStatus)) :
    (build_player_rows sessionIds players attP).map AttendanceMatrixRow.entityId
        = (players.filter
            (fun p => !p.isArchived && p.pstatus == PStatus.approved)).map PlayerRec.id
    ∧ (build_coach_rows sessionIds coaches rates catId attC).map
          AttendanceMatrixRow.entityId
        = (coaches.filter (fun c => c.isActive && rates.any
            (fun r => r.coachId == c.id && r.categoryId == catId
              && r.isActive))).map CoachRec.id
    ∧ (∀ row ∈ build_player_rows sessionIds players attP,
        row.sessions.map Prod.fst = sessionIds
        ∧ (∀ sid ∈ sessionIds,
            attP.find? (fun a => a.1 == sid && a.2.1 == row.entityId) = none →
            (sid, AttStatus.absent) ∈ row.sessions)
        ∧ (sessionIds = [] → row.attendance_pct = 0)
        ∧ (sessionIds ≠ [] → row.attendance_pct
            = round1 ((row.present_count : ℚ) / (sessionIds.length : ℚ) * 100)))
    ∧ (∀ row ∈ build_coach_rows sessionIds coaches rates catId attC,
        row.sessions.map Prod.fst = sessionIds
        ∧ (∀ sid ∈ sessionIds,
            attC.find? (fun a => a.1 == sid && a.2.1 == row.entityId) = none →
            (sid, AttStatus.absent) ∈ row.sessions)
        ∧ (sessionIds = [] → row.attendance_pct = 0)
        ∧ (sessionIds ≠ [] → row.attendance_pct
            = round1 ((row.present_count : ℚ) / (sessionIds.length : ℚ) * 100))) := by
  refine ⟨?_, ?_, ?_, ?_⟩
  · simp only [build_player_rows, List.map_map]
    rfl
  · simp only [build_coach_rows, List.map_map]
    rfl
  · intro row hrow
    obtain ⟨p, hp, rfl⟩ := List.mem_map.mp hrow
    refine ⟨by rw [List.map_map]; exact List.map_id _, ?_, ?_, ?_⟩
    · intro sid hsid hnone
      refine List.mem_map.mpr ⟨sid, hsid, ?_⟩
      simp only [lookupStatus, hnone]
    · intro h0
      subst h0
      rfl
    · intro hne
      simp only [AttendanceMatrixRow.attendance_pct, List.length_map]
      rw [if_neg (fun hc => hne (List.length_eq_zero.mp hc))]
  · intro row hrow
    obtain ⟨c, hc, rfl⟩ := List.mem_map.mp hrow
    refine ⟨by rw [List.map_map]; exact List.map_id _, ?_, ?_, ?_⟩
    · intro sid hsid hnone
      refine List.mem_map.mpr ⟨sid, hsid, ?_⟩
      simp only [lookupStatus, hnone]
    · intro h0
      subst h0
      rfl
    · intro hne
      simp only [AttendanceMatrixRow.attendance_pct, List.length_map]
      rw [if_neg (fun hc => hne (List.length_eq_zero.mp hc))]

/-- Witness for C5: one approved player, two sessions, an attendance record
only for the second session — the first column defaults to absent. -/
theorem build_attendance_matrix_complete_witness :
    (3, AttStatus.absent) ∈
      (AttendanceMatrixRow.mk 1 [(3, AttStatus.absent), (4, AttStatus.present)]).sessions :=
  ((build_attendance_matrix_complete [3, 4] [⟨1, .approved, false⟩] [] [] 0
      [(4, 1, .present)] []).2.2.1
    ⟨1, [(3, .absent), (4, .present)]⟩ (by decide)).2.1 3 (by decide) (by decide)

/-! ### Session-date synchronization (claim C6) -/

theorem le_max_getD (l : List Int) (x : Int) (hx : x ∈ l) : x ≤ l.max?.getD 0 := by
  have : Std.Antisymm (α := Int) (· ≤ ·) := ⟨fun h h2 => le_antisymm h h2⟩
  cases hm : l.max? with
  | none =>
    rw [List.max?_eq_none_iff] at hm
    subst hm
    cases hx
  | some m =>
    rw [List.max?_eq_some_iff] at hm
    · exact hm.2 x hx
    all_goals simp [le_total]

theorem filterMap_const_none {α β : Type} (l : List α) :
    l.filterMap (fun _ => (none : Option β)) = [] := by
  induction l with
  | nil => rfl
  | cons a t ih => simpa using ih

theorem days_for_weekdays_nil (y m : Int) : days_for_weekdays y m [] = [] :=
  filterMap_const_none _

/-- Claim C6 counterexample: a sheet populated for Mehr 1404 with Saturday
sessions (numbers 1–4) and then synchronized after Monday is added to the
schedule receives the Monday sessions numbered 6, 8, 10, 12 — the index
into the full matching-day enumeration is added to the previous maximum —
instead of the consecutive 5, 6, 7, 8 the specification promises. -/
theorem sync_session_numbering_counterexample :
    (_sync_session_dates (_populate_session_dates 1404 7 [0]) 1404 7 [0, 2]).map
        SessionDate.session_number = [1, 2, 3, 4, 6, 8, 10, 12]
    ∧ (_sync_session_dates (_populate_session_dates 1404 7 [0]) 1404 7 [0, 2]).map
        SessionDate.session_number ≠ [1, 2, 3, 4, 5, 6, 7, 8] := by
  constructor
  · decide
  · decide

/-- Claim C6 (amended): synchronization appends — it never deletes or
renumbers an existing `SessionDate`; every appended session's date is a
matching day that was not already present, every matching day not already
present is appended, and each appended number is `last_num + i` with `i`
the 1-based position of the day in the full matching-day enumeration (so
the new numbers all exceed every existing number but are generally *not*
consecutive from `max + 1`). -/
theorem sync_session_dates_numbering (existing : List SessionDate) (y m : Int)
    (weekdayInts : List Int) :
    ∃ added : List SessionDate,
      _sync_session_dates existing y m weekdayInts = existing ++ added
      ∧ (∀ s ∈ added, s.date ∉ existing.map SessionDate.date)
      ∧ (∀ s ∈ added, ∃ p ∈ (days_for_weekdays y m weekdayInts).enum,
            s.date = jalali_to_gregorian p.2.1 p.2.2.1 p.2.2.2
            ∧ s.session_number
              = ((existing.map SessionDate.session_number).max?).getD 0 + ((p.1 : Int) + 1))
      ∧ (∀ p ∈ (days_for_weekdays y m weekdayInts).enum,
            jalali_to_gregorian p.2.1 p.2.2.1 p.2.2.2 ∉ existing.map SessionDate.date →
            (SessionDate.mk (jalali_to_gregorian p.2.1 p.2.2.1 p.2.2.2)
              (((existing.map SessionDate.session_number).max?).getD 0 + ((p.1 : Int) + 1)))
              ∈ added)
      ∧ (∀ s ∈ added, ∀ e ∈ existing, e.session_number < s.session_number) := by
  by_cases hw : weekdayInts = []
  · refine ⟨[], ?_, ?_, ?_, ?_, ?_⟩
    · rw [List.append_nil]
      simp [_sync_session_dates, hw]
    · intro s hs; cases hs
    · intro s hs; cases hs
    · intro p hp hmem
      exfalso
      rw [hw, days_for_weekdays_nil] at hp
      simp at hp
    · intro s hs; cases hs
  · refine ⟨(days_for_weekdays y m weekdayInts).enum.filterMap
      (fun p =>
        let greg := jalali_to_gregorian p.2.1 p.2.2.1 p.2.2.2
        if (existing.map SessionDate.date).contains greg then none
        else some ⟨greg,
          ((existing.map SessionDate.session_number).max?).getD 0 + ((p.1 : Int) + 1)⟩),
      ?_, ?_, ?_, ?_, ?_⟩
    · simp only [_sync_session_dates, if_neg hw]
    · intro s hs
      obtain ⟨p, hp, hps⟩ := List.mem_filterMap.mp hs
      by_cases hc : (existing.map SessionDate.date).contains
          (jalali_to_gregorian p.2.1 p.2.2.1 p.2.2.2)
      · simp only [hc, if_pos] at hps
        cases hps
      · simp only [hc] at hps
        rw [if_neg (by simp [hc])] at hps
        cases hps
        simpa using hc
    · intro s hs
      obtain ⟨p, hp, hps⟩ := List.mem_filterMap.mp hs
      by_cases hc : (existing.map SessionDate.date).contains
          (jalali_to_gregorian p.2.1 p.2.2.1 p.2.2.2)
      · simp only [hc, if_pos] at hps
        cases hps
      · simp only [hc] at hps
        rw [if_neg (by simp [hc])] at hps
        cases hps
        exact ⟨p, hp, rfl, rfl⟩
    · intro p hp hmem
      refine List.mem_filterMap.mpr ⟨p, hp, ?_⟩
      rw [if_neg (by simpa using hmem)]
    · intro s hs e he
      obtain ⟨p, hp, hps⟩ := List.mem_filterMap.mp hs
      by_cases hc : (existing.map SessionDate.date).contains
          (jalali_to_gregorian p.2.1 p.2.2.1 p.2.2.2)
      · simp only [hc, if_pos] at hps
        cases hps
      · simp only [hc] at hps
        rw [if_neg (by simp [hc])] at hps
        cases hps
        have hle : e.session_number ≤
            ((existing.map SessionDate.session_number).max?).getD 0 :=
          le_max_getD _ _ (List.mem_map_of_mem _ he)
        have hnn : (0 : Int) ≤ (p.1 : Int) := Int.ofNat_nonneg p.1
        simp only
        omega

/-- Witness for C6 (amended): the sync of the counterexample sheet splits
as existing rows plus appended rows with the stated numbering. -/
theorem sync_session_dates_numbering_witness :
    ∃ added : List SessionDate,
      _sync_session_dates (_populate_session_dates 1404 7 [0]) 1404 7 [0, 2]
          = _populate_session_dates 1404 7 [0] ++ added
      ∧ (∀ s ∈ added, s.date ∉ (_populate_session_dates 1404 7 [0]).map SessionDate.date)
      ∧ (∀ s ∈ added, ∃ p ∈ (days_for_weekdays 1404 7 [0, 2]).enum,
            s.date = jalali_to_gregorian p.2.1 p.2.2.1 p.2.2.2
            ∧ s.session_number
              = (((_populate_session_dates 1404 7 [0]).map
                  SessionDate.session_number).max?).getD 0 + ((p.1 : Int) + 1))
      ∧ (∀ p ∈ (days_for_weekdays 1404 7 [0, 2]).enum,
            jalali_to_gregorian p.2.1 p.2.2.1 p.2.2.2
              ∉ (_populate_session_dates 1404 7 [0]).map SessionDate.date →
            (SessionDate.mk (jalali_to_gregorian p.2.1 p.2.2.1 p.2.2.2)
              ((((_populate_session_dates 1404 7 [0]).map
                  SessionDate.session_number).max?).getD 0 + ((p.1 : Int) + 1)))
              ∈ added)
      ∧ (∀ s ∈ added, ∀ e ∈ _populate_session_dates 1404 7 [0],
            e.session_number < s.session_number) :=
  sync_session_dates_numbering (_populate_session_dates 1404 7 [0]) 1404 7 [0, 2]

/-! ### Insurance expiry sweep (claim C7) -/

theorem notifyOnce_delta (acc : List InsNotif × Nat) (r pid : Nat) (d : Int) :
    ∃ Δ, (notifyOnce acc r pid d).1 = acc.1 ++ Δ
      ∧ ∀ n ∈ Δ, n.relatedPlayer = pid ∧ n.msgDaysLeft = d ∧ n.isRead = false := by
  unfold notifyOnce
  split_ifs with h
  · exact ⟨[], (List.append_nil _).symm, fun n hn => absurd hn (List.not_mem_nil n)⟩
  · refine ⟨[⟨r, pid, false, d⟩], rfl, ?_⟩
    intro n hn
    rw [List.mem_singleton] at hn
    subst hn
    exact ⟨rfl, rfl, rfl⟩

theorem foldl_notif_extends {α : Type} (Q : InsNotif → Prop) :
    ∀ (l : List α) (f : List InsNotif × Nat → α → List InsNotif × Nat),
      (∀ a, ∀ x ∈ l, ∃ Δ, (f a x).1 = a.1 ++ Δ ∧ ∀ n ∈ Δ, Q n) →
      ∀ acc, ∃ Δ, (l.foldl f acc).1 = acc.1 ++ Δ ∧ ∀ n ∈ Δ, Q n := by
  intro l
  induction l with
  | nil =>
    intro f _ acc
    exact ⟨[], (List.append_nil _).symm, fun n hn => absurd hn (List.not_mem_nil n)⟩
  | cons x t ih =>
    intro f hf acc
    obtain ⟨d1, h1, hq1⟩ := hf acc x (List.mem_cons_self x t)
    obtain ⟨d2, h2, hq2⟩ := ih f (fun a y hy => hf a y (List.mem_cons_of_mem x hy)) (f acc x)
    refine ⟨d1 ++ d2, ?_, ?_⟩
    · rw [List.foldl_cons, h2, h1, List.append_assoc]
    · intro n hn
      rcases List.mem_append.mp hn with h | h
      · exact hq1 n h
      · exact hq2 n h

theorem processInsurancePlayer_delta (rates : List RateRec) (directors : List Nat)
    (today : Int × Int × Int) (days_ahead : Int) (acc : List InsNotif × Nat)
    (p : InsPlayer) :
    ∃ Δ, (processInsurancePlayer rates directors today days_ahead acc p).1 = acc.1 ++ Δ
      ∧ ∀ n ∈ Δ, n.relatedPlayer = p.id
          ∧ p.insuranceActive = true ∧ p.isArchived = false ∧ p.approved = true
          ∧ ∃ e, p.insurance_expiry_date = some e
            ∧ 0 ≤ jdateDiffDays e today ∧ jdateDiffDays e today ≤ days_ahead
            ∧ n.msgDaysLeft = jdateDiffDays e today ∧ n.isRead = false := by
  unfold processInsurancePlayer
  split_ifs with h1 h2
  · exact ⟨[], (List.append_nil _).symm, fun n hn => absurd hn (List.not_mem_nil n)⟩
  · exact ⟨[], (List.append_nil _).symm, fun n hn => absurd hn (List.not_mem_nil n)⟩
  · simp only [Bool.not_eq_true, Bool.not_eq_false, Bool.and_eq_true,
      Bool.not_eq_true'] at h1 h2
    obtain ⟨⟨⟨hact, harch⟩, happr⟩, hsome⟩ := h1
    obtain ⟨e, he⟩ := Option.isSome_iff_exists.mp hsome
    have he' : p.insurance_expiry_date = some e := he
    have hsoon := h2
    rw [is_insurance_expiring_soon, he'] at hsoon
    simp only [hact, if_true, Bool.and_eq_true, decide_eq_true_eq] at hsoon
    obtain ⟨h0, hle⟩ := hsoon
    rw [he']
    simp only [Option.getD_some]
    have hinner : ∀ (a2 : List InsNotif × Nat) (r : RateRec),
        ∃ Δ, ((match r.coachUserId with
            | some cu => notifyOnce a2 cu p.id (jdateDiffDays e today)
            | none => a2) : List InsNotif × Nat).1 = a2.1 ++ Δ
          ∧ ∀ n ∈ Δ, n.relatedPlayer = p.id
              ∧ n.msgDaysLeft = jdateDiffDays e today ∧ n.isRead = false := by
      intro a2 r
      cases r.coachUserId with
      | some cu => exact notifyOnce_delta a2 cu p.id (jdateDiffDays e today)
      | none => exact ⟨[], (List.append_nil _).symm, fun n hn => absurd hn (List.not_mem_nil n)⟩
    have hstep1 : ∃ Δ, ((match p.userId with
        | some u => notifyOnce acc u p.id (jdateDiffDays e today)
        | none => acc) : List InsNotif × Nat).1 = acc.1 ++ Δ
        ∧ ∀ n ∈ Δ, n.relatedPlayer = p.id
            ∧ n.msgDaysLeft = jdateDiffDays e today ∧ n.isRead = false := by
      cases p.userId with
      | some u => exact notifyOnce_delta acc u p.id (jdateDiffDays e today)
      | none => exact ⟨[], (List.append_nil _).symm, fun n hn => absurd hn (List.not_mem_nil n)⟩
    obtain ⟨d1, hd1, hq1⟩ := hstep1
    obtain ⟨d2, hd2, hq2⟩ := foldl_notif_extends
      (fun n => n.relatedPlayer = p.id
          ∧ n.msgDaysLeft = jdateDiffDays e today ∧ n.isRead = false)
      (p.categories.filter (fun cpair => cpair.2))
      (fun a cpair =>
        (rates.filter (fun r => r.categoryId == cpair.1 && r.isActive)).foldl
          (fun a2 r =>
            match r.coachUserId with
            | some cu => notifyOnce a2 cu p.id (jdateDiffDays e today)
            | none => a2) a)
      (fun a cpair _ => foldl_notif_extends _
        (rates.filter (fun r => r.categoryId == cpair.1 && r.isActive)) _
        (fun a2 r _ => hinner a2 r) a)
      (match p.userId with
        | some u => notifyOnce acc u p.id (jdateDiffDays e today)
        | none => acc)
    obtain ⟨d3, hd3, hq3⟩ := foldl_notif_extends
      (fun n => n.relatedPlayer = p.id
          ∧ n.msgDaysLeft = jdateDiffDays e today ∧ n.isRead = false)
      directors
      (fun a td => notifyOnce a td p.id (jdateDiffDays e today))
      (fun a td _ => notifyOnce_delta a td p.id (jdateDiffDays e today))
      ((p.categories.filter (fun cpair => cpair.2)).foldl
        (fun a cpair =>
          (rates.filter (fun r => r.categoryId == cpair.1 && r.isActive)).foldl
            (fun a2 r =>
              match r.coachUserId with
              | some cu => notifyOnce a2 cu p.id (jdateDiffDays e today)
              | none => a2) a)
        (match p.userId with
          | some u => notifyOnce acc u p.id (jdateDiffDays e today)
          | none => acc))
    refine ⟨d1 ++ (d2 ++ d3), ?_, ?_⟩
    · rw [hd3, hd2, hd1, List.append_assoc, List.append_assoc]
    · intro n hn
      have hqn : n.relatedPlayer = p.id
          ∧ n.msgDaysLeft = jdateDiffDays e today ∧ n.isRead = false := by
        rcases List.mem_append.mp hn with h | h
        · exact hq1 n h
        rcases List.mem_append.mp h with h | h
        · exact hq2 n h
        · exact hq3 n h
      exact ⟨hqn.1, hact, harch, happr, e, rfl, h0, hle, hqn.2.1, hqn.2.2⟩

/-- Claim C7 counterexample: a player whose insurance expired yesterday
(days_left = −1) passes every queryset filter yet the sweep creates no
notification at all — `is_insurance_expiring_soon` requires
`0 ≤ days_left`, and the service `continue`s past such players instead of
sending the promised distinct "expired" message. -/
theorem insurance_expired_skipped_counterexample :
    send_insurance_expiry_notifications
        [⟨1, some 10, true, false, true, some (1404, 7, 19), []⟩] [] [7]
        (1404, 7, 20) 30 [] = ([], 0)
    ∧ jdateDiffDays (1404, 7, 19) (1404, 7, 20) < 0 := by
  constructor
  · decide
  · decide

/-- Claim C7 (amended): the sweep only appends notifications, and every
notification it creates belongs to an insured, approved, non-archived
player whose days_left satisfies `0 ≤ days_left ≤ days_ahead`; the
days-left figure is interpolated into one uniform message (no separate
"expired"/"urgent" text), so a player with negative days_left — already
expired — is silently skipped. -/
theorem send_insurance_expiry_notifications_spec (players : List InsPlayer)
    (rates : List RateRec) (directors : List Nat) (today : Int × Int × Int)
    (days_ahead : Int) (notifs : List InsNotif) :
    ∃ created, (send_insurance_expiry_notifications players rates directors today
        days_ahead notifs).1 = notifs ++ created
      ∧ ∀ n ∈ created, ∃ p ∈ players, n.relatedPlayer = p.id
          ∧ p.insuranceActive = true ∧ p.isArchived = false ∧ p.approved = true
          ∧ ∃ e, p.insurance_expiry_date = some e
            ∧ 0 ≤ jdateDiffDays e today ∧ jdateDiffDays e today ≤ days_ahead
            ∧ n.msgDaysLeft = jdateDiffDays e today ∧ n.isRead = false := by
  obtain ⟨Δ, h, hq⟩ := foldl_notif_extends
    (fun n => ∃ p ∈ players, n.relatedPlayer = p.id
        ∧ p.insuranceActive = true ∧ p.isArchived = false ∧ p.approved = true
        ∧ ∃ e, p.insurance_expiry_date = some e
          ∧ 0 ≤ jdateDiffDays e today ∧ jdateDiffDays e today ≤ days_ahead
          ∧ n.msgDaysLeft = jdateDiffDays e today ∧ n.isRead = false)
    players
    (processInsurancePlayer rates directors today days_ahead)
    (fun acc p hp => by
      obtain ⟨Δ, h, hq⟩ := processInsurancePlayer_delta rates directors today
        days_ahead acc p
      exact ⟨Δ, h, fun n hn => ⟨p, hp, hq n hn⟩⟩)
    (notifs, 0)
  exact ⟨Δ, h, hq⟩

/-- Witness for C7 (amended): the sweep over one expiring-soon player with
one technical director appends only filter-passing notifications. -/
theorem send_insurance_expiry_notifications_spec_witness :
    ∃ created, (send_insurance_expiry_notifications
        [⟨1, some 10, true, false, true, some (1404, 7, 25), []⟩] [] [7]
        (1404, 7, 20) 30 []).1 = [] ++ created
      ∧ ∀ n ∈ created, ∃ p ∈ [(⟨1, some 10, true, false, true, some (1404, 7, 25),
            []⟩ : InsPlayer)], n.relatedPlayer = p.id
          ∧ p.insuranceActive = true ∧ p.isArchived = false ∧ p.approved = true
          ∧ ∃ e, p.insurance_expiry_date = some e
            ∧ 0 ≤ jdateDiffDays e (1404, 7, 20) ∧ jdateDiffDays e (1404, 7, 20) ≤ 30
            ∧ n.msgDaysLeft = jdateDiffDays e (1404, 7, 20) ∧ n.isRead = false :=
  send_insurance_expiry_notifications_spec
    [⟨1, some 10, true, false, true, some (1404, 7, 25), []⟩] [] [7] (1404, 7, 20) 30 []

end FutsalClub
